import Mathlib

/-!
Verification of the DROMA-Py name-harmonization module
(`src/droma_py/harmonization.py`) against its specification.

The Python code is shallowly embedded: strings are Lean `String`s
(processed as `List Char`), pandas data frames become lists of records,
the SQLite store becomes an explicit `Database` record, and the
`DROMATableError` exception becomes an `Except` error value.  Floating
point fuzzy-match scores are modelled over `ℚ` (the claims under
verification only depend on the ordering of scores, never on rounding).
Python's `str.lower` is modelled on the ASCII range (the inputs the
module manipulates after CJK stripping are ASCII-oriented; the claims do
not depend on non-ASCII case mapping).
-/

/-- Whitespace class of Python's regex `\s` / `str.strip`, ASCII range. -/
def pySpace (c : Char) : Bool :=
  c = ' ' || c = '\t' || c = '\n' || c = '\r' || c = '\x0b' || c = '\x0c'

/-- Character class of the regex `[a-z0-9]`. -/
def isLowerAlnum (c : Char) : Bool :=
  (97 ≤ c.toNat && c.toNat ≤ 122) || (48 ≤ c.toNat && c.toNat ≤ 57)

/-- CJK ideograph range `[一-鿿]` removed by both cleaners. -/
def isCJK (c : Char) : Bool :=
  0x4e00 ≤ c.toNat && c.toNat ≤ 0x9fff

/-- Python `str.lower`, modelled on the ASCII range. -/
def pyLower (c : Char) : Char :=
  if 65 ≤ c.toNat ∧ c.toNat ≤ 90 then Char.ofNat (c.toNat + 32) else c

/-- Python `str.strip()`: drop leading and trailing whitespace. -/
def pyTrim (l : List Char) : List Char :=
  ((l.dropWhile pySpace).reverse.dropWhile pySpace).reverse

/-- Python `name.replace("[?]", "")`: remove every occurrence of the
literal three-character substring, scanning left to right. -/
def removeBracketQ : List Char → List Char
  | '[' :: '?' :: ']' :: rest => removeBracketQ rest
  | c :: rest => c :: removeBracketQ rest
  | [] => []

/-- Helper for `re.sub(r'\[.*?\]', '', name)`: given the characters after
a `[`, skip to just after the nearest `]`, failing on a newline (regex `.`
does not match a newline) or end of input. -/
def skipToRBracket : List Char → Option (List Char)
  | [] => none
  | c :: rest =>
      if c = ']' then some rest
      else if c = '\n' then none
      else skipToRBracket rest

theorem skipToRBracket_length {l l' : List Char} (h : skipToRBracket l = some l') :
    l'.length < l.length := by
  induction l with
  | nil => simp [skipToRBracket] at h
  | cons c rest ih =>
      simp only [skipToRBracket] at h
      split at h
      · cases h; simp
      · split at h
        · cases h
        · exact Nat.lt_trans (ih h) (by simp)

/-- Fuel-indexed worker for `removeSquare`: structural recursion on the
fuel so that the function reduces inside the kernel.  Each step consumes
one unit of fuel and at least one input character, so fuel equal to the
input length always suffices; exhausted fuel (unreachable) returns the
input unchanged. -/
def removeSquareF : ℕ → List Char → List Char
  | 0, l => l
  | _ + 1, [] => []
  | fuel + 1, c :: rest =>
      if c = '[' then
        match skipToRBracket rest with
        | some rest2 => removeSquareF fuel rest2
        | none => c :: removeSquareF fuel rest
      else c :: removeSquareF fuel rest

/-- The sample cleaner's `re.sub(r'\[.*?\]', '', name)`: remove every
(non-greedy) bracketed segment `[...]`. -/
def removeSquare (l : List Char) : List Char :=
  removeSquareF l.length l

/-- Condition of `re.match(r'^\s*\(.*\)\s*$', name)`: the string is
optional whitespace, `(`, any characters without a newline, `)`,
optional whitespace.  Equivalently (because `(` and `)` are not
whitespace, forcing the decomposition to be unique): after trimming,
the first character is `(`, the last is `)`, and no newline stands
strictly between them. -/
def wholeParenMatch (s : List Char) : Bool :=
  match pyTrim s with
  | '(' :: rest =>
      !rest.isEmpty && rest.getLast? == some ')' && !rest.dropLast.contains '\n'
  | _ => false

/-- One alternative of `re.sub(r'^\s*\(|\)\s*$', '', name)`: remove a
leading `\s*\(` if present. -/
def subLeadingParen (s : List Char) : List Char :=
  match s.dropWhile pySpace with
  | '(' :: rest => rest
  | _ => s

/-- The other alternative of `re.sub(r'^\s*\(|\)\s*$', '', name)`:
remove a trailing `\)\s*` if present. -/
def subTrailingParen (s : List Char) : List Char :=
  match s.reverse.dropWhile pySpace with
  | ')' :: rest => rest.reverse
  | _ => s

/-- Helper for `re.sub(r'\s*\([^)]+\)', '', name)`: skip to just after
the first `)` (the `[^)]+` content may contain anything but `)`,
including newlines). -/
def afterParenContent : List Char → Option (List Char)
  | [] => none
  | c :: rest => if c = ')' then some rest else afterParenContent rest

theorem afterParenContent_length {l l' : List Char}
    (h : afterParenContent l = some l') : l'.length < l.length := by
  induction l with
  | nil => simp [afterParenContent] at h
  | cons c rest ih =>
      simp only [afterParenContent] at h
      split at h
      · cases h; simp
      · exact Nat.lt_trans (ih h) (by simp)

/-- Try to match `\s*\([^)]+\)` at the head of `s`; on success return
the remainder after the match. -/
def tryParenMatch (s : List Char) : Option (List Char) :=
  match s.dropWhile pySpace with
  | '(' :: rest =>
      match rest with
      | ')' :: _ => none
      | _ => afterParenContent rest
  | _ => none

theorem tryParenMatch_length {s r : List Char} (h : tryParenMatch s = some r) :
    r.length < s.length := by
  unfold tryParenMatch at h
  split at h
  · rename_i rest heq
    have hd : (s.dropWhile pySpace).length ≤ s.length :=
      (List.dropWhile_sublist pySpace).length_le
    rw [heq] at hd
    split at h
    · cases h
    · have := afterParenContent_length h
      simp at hd
      omega
  · cases h

/-- Fuel-indexed worker for `removeParenGroups` (same fuel discipline
as `removeSquareF`). -/
def removeParenGroupsF : ℕ → List Char → List Char
  | 0, l => l
  | _ + 1, [] => []
  | fuel + 1, c :: rest =>
      match tryParenMatch (c :: rest) with
      | some r => removeParenGroupsF fuel r
      | none => c :: removeParenGroupsF fuel rest

/-- `re.sub(r'\s*\([^)]+\)', '', name)`: remove every parenthesized
group with non-empty `)`-free content, together with the whitespace
immediately preceding it. -/
def removeParenGroups (l : List Char) : List Char :=
  removeParenGroupsF l.length l

/-- The parenthesis-handling step shared verbatim by `_clean_name` and
`_clean_drug_name` (harmonization.py lines 46-51 and 82-87). -/
def paren_step (s : List Char) : List Char :=
  if wholeParenMatch s then subTrailingParen (subLeadingParen s)
  else removeParenGroups s

/-- `re.sub(r'\s+', ' ', name)`: collapse each whitespace run to a
single space (the single space is emitted at the last character of the
run). -/
def collapseWs : List Char → List Char
  | [] => []
  | [c] => if pySpace c then [' '] else [c]
  | c :: d :: rest =>
      if pySpace c then
        if pySpace d then collapseWs (d :: rest)
        else ' ' :: collapseWs (d :: rest)
      else c :: collapseWs (d :: rest)

/-- `_clean_name` (harmonization.py lines 21-57), on character lists.
The `pd.isna(name) or name is None` guard is unrepresentable for a Lean
`String` argument and `str(name)` is the identity on strings. -/
def cleanNameL (s : List Char) : List Char :=
  let s1 := s.map pyLower
  let s2 := removeBracketQ s1
  let s3 := s2.filter (fun c => !isCJK c)
  let s4 := removeSquare s3
  let s5 := paren_step s4
  let s6 := s5.filter isLowerAlnum
  pyTrim s6

/-- `_clean_name`: clean a sample name for matching. -/
def _clean_name (s : String) : String :=
  ⟨cleanNameL s.data⟩

/-- `_clean_drug_name` (harmonization.py lines 60-94), on character
lists.  Identical to `_clean_name` except: no `\[.*?\]` removal step,
and the character-class reduction maps to spaces (then collapses runs)
instead of deleting. -/
def cleanDrugNameL (s : List Char) : List Char :=
  let s1 := s.map pyLower
  let s2 := removeBracketQ s1
  let s3 := s2.filter (fun c => !isCJK c)
  let s4 := paren_step s3
  let s5 := s4.map (fun c => if isLowerAlnum c then c else ' ')
  let s6 := collapseWs s5
  pyTrim s6

/-- `_clean_drug_name`: clean a drug name for matching. -/
def _clean_drug_name (s : String) : String :=
  ⟨cleanDrugNameL s.data⟩

/-! ## Data model -/

/-- One result record of the harmonization output (one per input name). -/
structure MatchRow where
  original_name : String
  cleaned_name : String
  harmonized_name : String
  match_type : String
  match_confidence : String
  new_name : String
deriving DecidableEq

/-- One row of the `sample_anno` reference table.  `AlternateName` is
optional (`none` models SQL NULL / pandas NaN, which the code tests
with `pd.notna`). -/
structure SampleAnnoRow where
  SampleID : String
  ProjectRawName : String
  AlternateName : Option String
deriving DecidableEq

/-- One row of the `drug_anno` reference table. -/
structure DrugAnnoRow where
  DrugName : String
  ProjectRawName : String
deriving DecidableEq

/-- One row of the transient alternate-name expansion built by
`check_droma_sample_names` (harmonization.py lines 157-182). -/
structure AltEntry where
  raw_name : String
  harmonized_name : String
  clean_name : String
deriving DecidableEq

/-- The SQLite store as seen by the harmonizer: the list of table names
in `sqlite_master`, and the two annotation tables' rows.
`sampleAnnoHasAlternateNameCol` models whether the `AlternateName`
column exists in `sample_anno` (`'AlternateName' in sample_anno.columns`). -/
structure Database where
  tables : List String
  sample_anno : List SampleAnnoRow
  sampleAnnoHasAlternateNameCol : Bool
  drug_anno : List DrugAnnoRow
deriving DecidableEq

/-- The exceptions of `exceptions.py` that `harmonization.py` can raise
from a live connection. -/
inductive DROMAException where
  | DROMATableError (message : String)
deriving DecidableEq

/-! ## Fuzzy scoring (rapidfuzz `fuzz.ratio` / `process.extractOne`) -/

/-- InDel (longest-common-subsequence) edit distance: insertions and
deletions only, the distance underlying rapidfuzz's `fuzz.ratio`.
Fuel-indexed worker (one unit of fuel per consumed character, so the
summed lengths always suffice; the fuel-exhausted arm is unreachable). -/
def indelDistF : ℕ → List Char → List Char → ℕ
  | _, [], ys => ys.length
  | _, x :: xs, [] => (x :: xs).length
  | 0, _, _ => 0
  | fuel + 1, x :: xs, y :: ys =>
      if x = y then indelDistF fuel xs ys
      else 1 + min (indelDistF fuel xs (y :: ys)) (indelDistF fuel (x :: xs) ys)

def indelDist (a b : List Char) : ℕ :=
  indelDistF (a.length + b.length) a b

/-- rapidfuzz `fuzz.ratio`: normalized InDel similarity on a 0-100
scale (modelled over `ℚ` instead of floating point). -/
def fuzzScore (a b : List Char) : ℚ :=
  let tot := a.length + b.length
  if tot = 0 then 100
  else 100 * (((tot : ℚ) - indelDist a b) / (tot : ℚ))

/-- Python `int()` applied to a non-integral number: truncation toward
zero, used for `int((1-max_distance)*100)`. -/
def pyInt (q : ℚ) : ℤ :=
  q.num.tdiv (q.den : ℤ)

/-- The best-scoring choice (first one wins ties, as rapidfuzz replaces
the running best only on a strictly greater score), with its score. -/
def bestChoice (query : String) : List String → Option (String × ℚ)
  | [] => none
  | c :: cs =>
      let s := fuzzScore query.data c.data
      match bestChoice query cs with
      | none => some (c, s)
      | some (c2, s2) => if s2 > s then some (c2, s2) else some (c, s)

/-- rapidfuzz `process.extractOne(query, choices, scorer=fuzz.ratio,
score_cutoff=...)`, reduced to the matched string: the best choice if
its score reaches the cutoff, else `None`. -/
def extractOne (query : String) (choices : List String) (score_cutoff : ℤ) : Option String :=
  match bestChoice query choices with
  | some (c, s) => if (score_cutoff : ℚ) ≤ s then some c else none
  | none => none

/-! ## Substring test (pandas `str.contains` with a literal pattern) -/

/-- `listStartsWith needle l`: `needle` is an initial segment of `l`. -/
def listStartsWith : List Char → List Char → Bool
  | [], _ => true
  | _ :: _, [] => false
  | a :: as, b :: bs => a == b && listStartsWith as bs

/-- `containsSub hay needle`: `needle` occurs as a contiguous substring
of `hay`.  This is pandas `hay.str.contains(needle)` for the cleaned
needles at play, which contain no regex metacharacters (`[a-z0-9 ]`
only). -/
def containsSub (hay needle : List Char) : Bool :=
  hay.tails.any (fun t => listStartsWith needle t)

/-! ## Alternate-name expansion -/

/-- `re.split(r'[:|]', s)`: split at every `:` or `|`, keeping empty
pieces. -/
def pySplitAlt : List Char → List (List Char)
  | [] => [[]]
  | c :: rest =>
      if c = ':' ∨ c = '|' then [] :: pySplitAlt rest
      else
        match pySplitAlt rest with
        | p :: ps => (c :: p) :: ps
        | [] => [[c]]

/-- `[name.strip() for name in re.split(r'[:|]', str(alt)) if
name.strip() and name.strip() != "|"]` (harmonization.py lines
172-173). -/
def altPieces (a : String) : List String :=
  (pySplitAlt a.data).filterMap (fun p =>
    let t := pyTrim p
    if t ≠ [] ∧ t ≠ ['|'] then some ⟨t⟩ else none)

/-- The alternate-mapping entries contributed by one `sample_anno` row:
the `SampleID` self-mapping, then one entry per usable alternate name
(harmonization.py lines 160-180). -/
def altEntries (row : SampleAnnoRow) : List AltEntry :=
  { raw_name := row.SampleID, harmonized_name := row.SampleID,
    clean_name := _clean_name row.SampleID } ::
  (match row.AlternateName with
   | some a =>
       if a = "" then []
       else (altPieces a).map (fun n =>
         { raw_name := n, harmonized_name := row.SampleID, clean_name := _clean_name n })
   | none => [])

/-! ## Matching tiers

Each pandas selection `table[table[col] == key].iloc[0]` becomes
`filterTier`: the first row passing the predicate, if any.  The cleaned
columns (`clean_sampleid` etc., precomputed with `.apply` in the code)
are recomputed inline, which is extensionally the same. -/

/-- First element of `l.filter p`, made into a result row; `none` when
the selection is empty. -/
def filterTier {α : Type} (l : List α) (p : α → Bool) (mk : α → MatchRow) : Option MatchRow :=
  match l.filter p with
  | r :: _ => some (mk r)
  | [] => none

/-- Tier 1 / `exact_sampleid` (harmonization.py lines 208-220). -/
def exactSampleIdTier (sample_anno : List SampleAnnoRow) (original_name clean_name : String) :
    Option MatchRow :=
  filterTier sample_anno (fun r => _clean_name r.SampleID == clean_name) (fun r =>
    { original_name := original_name, cleaned_name := clean_name,
      harmonized_name := r.SampleID, match_type := "exact_sampleid",
      match_confidence := "high", new_name := r.SampleID })

/-- Tier 2 / `exact_rawname` (lines 222-234); the harmonized name comes
from the matched row's `SampleID`. -/
def exactRawnameTier (sample_anno : List SampleAnnoRow) (original_name clean_name : String) :
    Option MatchRow :=
  filterTier sample_anno (fun r => _clean_name r.ProjectRawName == clean_name) (fun r =>
    { original_name := original_name, cleaned_name := clean_name,
      harmonized_name := r.SampleID, match_type := "exact_rawname",
      match_confidence := "high", new_name := r.SampleID })

/-- Tier 3 / `exact_alternate` (lines 236-248).  The code's extra guard
`not alternate_mapping.empty` is subsumed: filtering an empty mapping
selects nothing. -/
def exactAlternateTier (alternate_mapping : List AltEntry) (original_name clean_name : String) :
    Option MatchRow :=
  filterTier alternate_mapping (fun e => e.clean_name == clean_name) (fun e =>
    { original_name := original_name, cleaned_name := clean_name,
      harmonized_name := e.harmonized_name, match_type := "exact_alternate",
      match_confidence := "high", new_name := e.harmonized_name })

/-- `fuzzy_sampleid` (lines 251-270).  `.dropna()` is a no-op on a
cleaned column and `if choices:` is subsumed (`extractOne` of an empty
choice list is `None`); `index[0]` retrieval is the first row whose
cleaned id equals the best match. -/
def fuzzySampleIdTier (sample_anno : List SampleAnnoRow) (original_name clean_name : String)
    (score_cutoff : ℤ) : Option MatchRow :=
  let choices := sample_anno.map (fun r => _clean_name r.SampleID)
  match extractOne clean_name choices score_cutoff with
  | some best =>
      filterTier sample_anno (fun r => _clean_name r.SampleID == best) (fun r =>
        { original_name := original_name, cleaned_name := clean_name,
          harmonized_name := r.SampleID, match_type := "fuzzy_sampleid",
          match_confidence := "medium", new_name := r.SampleID })
  | none => none

/-- `fuzzy_rawname` (lines 272-292). -/
def fuzzyRawnameTier (sample_anno : List SampleAnnoRow) (original_name clean_name : String)
    (score_cutoff : ℤ) : Option MatchRow :=
  let choices := sample_anno.map (fun r => _clean_name r.ProjectRawName)
  match extractOne clean_name choices score_cutoff with
  | some best =>
      filterTier sample_anno (fun r => _clean_name r.ProjectRawName == best) (fun r =>
        { original_name := original_name, cleaned_name := clean_name,
          harmonized_name := r.SampleID, match_type := "fuzzy_rawname",
          match_confidence := "medium", new_name := r.SampleID })
  | none => none

/-- `fuzzy_alternate` (lines 294-314); the code's `not
alternate_mapping.empty` guard is again subsumed. -/
def fuzzyAlternateTier (alternate_mapping : List AltEntry) (original_name clean_name : String)
    (score_cutoff : ℤ) : Option MatchRow :=
  let choices := alternate_mapping.map (fun e => e.clean_name)
  match extractOne clean_name choices score_cutoff with
  | some best =>
      filterTier alternate_mapping (fun e => e.clean_name == best) (fun e =>
        { original_name := original_name, cleaned_name := clean_name,
          harmonized_name := e.harmonized_name, match_type := "fuzzy_alternate",
          match_confidence := "medium", new_name := e.harmonized_name })
  | none => none

/-- The fuzzy block (lines 250-314): the three fields in order, first
hit wins. -/
def fuzzySampleTiers (sample_anno : List SampleAnnoRow) (alternate_mapping : List AltEntry)
    (original_name clean_name : String) (score_cutoff : ℤ) : Option MatchRow :=
  match fuzzySampleIdTier sample_anno original_name clean_name score_cutoff with
  | some r => some r
  | none =>
      match fuzzyRawnameTier sample_anno original_name clean_name score_cutoff with
      | some r => some r
      | none => fuzzyAlternateTier alternate_mapping original_name clean_name score_cutoff

/-- `partial_sampleid` (lines 317-330): the cleaned input occurs inside
a cleaned reference `SampleID` (`str.contains`, `na=False` vacuous). -/
def subSampleIdTier (sample_anno : List SampleAnnoRow) (original_name clean_name : String) :
    Option MatchRow :=
  filterTier sample_anno (fun r => containsSub (_clean_name r.SampleID).data clean_name.data)
    (fun r =>
      { original_name := original_name, cleaned_name := clean_name,
        harmonized_name := r.SampleID, match_type := "partial_sampleid",
        match_confidence := "low", new_name := r.SampleID })

/-- `partial_rawname` (lines 332-344). -/
def subRawnameTier (sample_anno : List SampleAnnoRow) (original_name clean_name : String) :
    Option MatchRow :=
  filterTier sample_anno (fun r => containsSub (_clean_name r.ProjectRawName).data clean_name.data)
    (fun r =>
      { original_name := original_name, cleaned_name := clean_name,
        harmonized_name := r.SampleID, match_type := "partial_rawname",
        match_confidence := "low", new_name := r.SampleID })

/-- The substring block (lines 316-344): both fields in order. -/
def subSampleTiers (sample_anno : List SampleAnnoRow) (original_name clean_name : String) :
    Option MatchRow :=
  match subSampleIdTier sample_anno original_name clean_name with
  | some r => some r
  | none => subRawnameTier sample_anno original_name clean_name

/-- The body of the per-sample-name loop (harmonization.py lines
191-355): long-name bypass, then exact, fuzzy and substring tiers, each
guarded as in the code, then the no-match fallback. -/
def matchSampleName (sample_anno : List SampleAnnoRow) (alternate_mapping : List AltEntry)
    (max_distance : ℚ) (min_name_length : ℕ) (original_name : String) : MatchRow :=
  let clean_name := _clean_name original_name
  if original_name.length > 30 then
    { original_name := original_name, cleaned_name := clean_name,
      harmonized_name := original_name, match_type := "keep_original_long",
      match_confidence := "medium", new_name := original_name }
  else
    let score_cutoff := pyInt ((1 - max_distance) * 100)
    match exactSampleIdTier sample_anno original_name clean_name with
    | some r => r
    | none =>
    match exactRawnameTier sample_anno original_name clean_name with
    | some r => r
    | none =>
    match exactAlternateTier alternate_mapping original_name clean_name with
    | some r => r
    | none =>
    match (if 3 ≤ clean_name.length then
             fuzzySampleTiers sample_anno alternate_mapping original_name clean_name score_cutoff
           else none) with
    | some r => r
    | none =>
    match (if min_name_length ≤ clean_name.length then
             subSampleTiers sample_anno original_name clean_name
           else none) with
    | some r => r
    | none =>
      { original_name := original_name, cleaned_name := clean_name,
        harmonized_name := clean_name, match_type := "no_match",
        match_confidence := "none", new_name := original_name }

/-- `check_droma_sample_names` (harmonization.py lines 97-376).  The
summary logging (lines 359-374) only writes to the logger and is
dropped.  The connection argument becomes the explicit `Database`. -/
def check_droma_sample_names (db : Database) (sample_names : List String)
    (max_distance : ℚ) (min_name_length : ℕ) : Except DROMAException (List MatchRow) :=
  if "sample_anno" ∉ db.tables then
    .error (.DROMATableError "Sample annotation table 'sample_anno' not found in database")
  else if db.sample_anno.isEmpty then
    .ok (sample_names.map (fun n =>
      { original_name := n, cleaned_name := _clean_name n, harmonized_name := n,
        match_type := "no_match", match_confidence := "none", new_name := n }))
  else
    let alternate_mapping :=
      if db.sampleAnnoHasAlternateNameCol then (db.sample_anno.map altEntries).flatten else []
    .ok (sample_names.map
      (matchSampleName db.sample_anno alternate_mapping max_distance min_name_length))

/-- `exact_drugname` (harmonization.py lines 464-476). -/
def exactDrugnameTier (drug_anno : List DrugAnnoRow) (original_name clean_name : String) :
    Option MatchRow :=
  filterTier drug_anno (fun r => _clean_drug_name r.DrugName == clean_name) (fun r =>
    { original_name := original_name, cleaned_name := clean_name,
      harmonized_name := r.DrugName, match_type := "exact_drugname",
      match_confidence := "high", new_name := r.DrugName })

/-- Drug `exact_rawname` (lines 478-490). -/
def exactDrugRawnameTier (drug_anno : List DrugAnnoRow) (original_name clean_name : String) :
    Option MatchRow :=
  filterTier drug_anno (fun r => _clean_drug_name r.ProjectRawName == clean_name) (fun r =>
    { original_name := original_name, cleaned_name := clean_name,
      harmonized_name := r.DrugName, match_type := "exact_rawname",
      match_confidence := "high", new_name := r.DrugName })

/-- `fuzzy_drugname` (lines 493-512). -/
def fuzzyDrugnameTier (drug_anno : List DrugAnnoRow) (original_name clean_name : String)
    (score_cutoff : ℤ) : Option MatchRow :=
  let choices := drug_anno.map (fun r => _clean_drug_name r.DrugName)
  match extractOne clean_name choices score_cutoff with
  | some best =>
      filterTier drug_anno (fun r => _clean_drug_name r.DrugName == best) (fun r =>
        { original_name := original_name, cleaned_name := clean_name,
          harmonized_name := r.DrugName, match_type := "fuzzy_drugname",
          match_confidence := "medium", new_name := r.DrugName })
  | none => none

/-- Drug `fuzzy_rawname` (lines 514-534). -/
def fuzzyDrugRawnameTier (drug_anno : List DrugAnnoRow) (original_name clean_name : String)
    (score_cutoff : ℤ) : Option MatchRow :=
  let choices := drug_anno.map (fun r => _clean_drug_name r.ProjectRawName)
  match extractOne clean_name choices score_cutoff with
  | some best =>
      filterTier drug_anno (fun r => _clean_drug_name r.ProjectRawName == best) (fun r =>
        { original_name := original_name, cleaned_name := clean_name,
          harmonized_name := r.DrugName, match_type := "fuzzy_rawname",
          match_confidence := "medium", new_name := r.DrugName })
  | none => none

/-- The drug fuzzy block (lines 492-534): two fields, no alternate
tier. -/
def fuzzyDrugTiers (drug_anno : List DrugAnnoRow) (original_name clean_name : String)
    (score_cutoff : ℤ) : Option MatchRow :=
  match fuzzyDrugnameTier drug_anno original_name clean_name score_cutoff with
  | some r => some r
  | none => fuzzyDrugRawnameTier drug_anno original_name clean_name score_cutoff

/-- `partial_drugname` (lines 538-550). -/
def subDrugnameTier (drug_anno : List DrugAnnoRow) (original_name clean_name : String) :
    Option MatchRow :=
  filterTier drug_anno (fun r => containsSub (_clean_drug_name r.DrugName).data clean_name.data)
    (fun r =>
      { original_name := original_name, cleaned_name := clean_name,
        harmonized_name := r.DrugName, match_type := "partial_drugname",
        match_confidence := "low", new_name := r.DrugName })

/-- Drug `partial_rawname` (lines 552-564). -/
def subDrugRawnameTier (drug_anno : List DrugAnnoRow) (original_name clean_name : String) :
    Option MatchRow :=
  filterTier drug_anno
    (fun r => containsSub (_clean_drug_name r.ProjectRawName).data clean_name.data)
    (fun r =>
      { original_name := original_name, cleaned_name := clean_name,
        harmonized_name := r.DrugName, match_type := "partial_rawname",
        match_confidence := "low", new_name := r.DrugName })

/-- The drug substring block (lines 536-564). -/
def subDrugTiers (drug_anno : List DrugAnnoRow) (original_name clean_name : String) :
    Option MatchRow :=
  match subDrugnameTier drug_anno original_name clean_name with
  | some r => some r
  | none => subDrugRawnameTier drug_anno original_name clean_name

/-- The body of the per-drug-name loop (harmonization.py lines
447-575). -/
def matchDrugName (drug_anno : List DrugAnnoRow) (max_distance : ℚ) (min_name_length : ℕ)
    (keep_long_names_threshold : ℕ) (original_name : String) : MatchRow :=
  let clean_name := _clean_drug_name original_name
  if original_name.length > keep_long_names_threshold then
    { original_name := original_name, cleaned_name := clean_name,
      harmonized_name := original_name, match_type := "keep_original_long",
      match_confidence := "medium", new_name := original_name }
  else
    let score_cutoff := pyInt ((1 - max_distance) * 100)
    match exactDrugnameTier drug_anno original_name clean_name with
    | some r => r
    | none =>
    match exactDrugRawnameTier drug_anno original_name clean_name with
    | some r => r
    | none =>
    match (if 3 ≤ clean_name.length then
             fuzzyDrugTiers drug_anno original_name clean_name score_cutoff
           else none) with
    | some r => r
    | none =>
    match (if min_name_length ≤ clean_name.length then
             subDrugTiers drug_anno original_name clean_name
           else none) with
    | some r => r
    | none =>
      { original_name := original_name, cleaned_name := clean_name,
        harmonized_name := clean_name, match_type := "no_match",
        match_confidence := "none", new_name := original_name }

/-- `check_droma_drug_names` (harmonization.py lines 379-596); summary
logging dropped as for the sample variant. -/
def check_droma_drug_names (db : Database) (drug_names : List String)
    (max_distance : ℚ) (min_name_length : ℕ) (keep_long_names_threshold : ℕ) :
    Except DROMAException (List MatchRow) :=
  if "drug_anno" ∉ db.tables then
    .error (.DROMATableError "Drug annotation table 'drug_anno' not found in database")
  else if db.drug_anno.isEmpty then
    .ok (drug_names.map (fun n =>
      { original_name := n, cleaned_name := _clean_drug_name n, harmonized_name := n,
        match_type := "no_match", match_confidence := "none", new_name := n }))
  else
    .ok (drug_names.map
      (matchDrugName db.drug_anno max_distance min_name_length keep_long_names_threshold))

/-! ## Structural lemmas about the tiers -/

theorem filterTier_shape {α : Type} {l : List α} {p : α → Bool} {o cn T C : String}
    {f : α → String} {r : MatchRow}
    (h : filterTier l p (fun a =>
      { original_name := o, cleaned_name := cn, harmonized_name := f a,
        match_type := T, match_confidence := C, new_name := f a }) = some r) :
    r.original_name = o ∧ r.cleaned_name = cn ∧ r.match_type = T ∧
    r.match_confidence = C ∧ r.new_name = r.harmonized_name := by
  unfold filterTier at h
  split at h
  · cases h; simp
  · cases h

/-- Common shape of every successful tier row: input echoed verbatim,
a confident (non-"none") label, a tier-identifying match type, and
`new_name` mirroring `harmonized_name`. -/
def TierRowShape (o cn : String) (r : MatchRow) : Prop :=
  r.original_name = o ∧ r.cleaned_name = cn ∧
  r.match_confidence ∈ (["high", "medium", "low"] : List String) ∧
  r.match_type ∈ (["exact_sampleid", "exact_rawname", "exact_alternate", "exact_drugname",
    "fuzzy_sampleid", "fuzzy_rawname", "fuzzy_alternate", "fuzzy_drugname",
    "partial_sampleid", "partial_rawname", "partial_drugname"] : List String) ∧
  r.new_name = r.harmonized_name

theorem exactSampleIdTier_shape {sample_anno o cn r}
    (h : exactSampleIdTier sample_anno o cn = some r) :
    r.original_name = o ∧ r.cleaned_name = cn ∧ r.match_type = "exact_sampleid" ∧
    r.match_confidence = "high" ∧ r.new_name = r.harmonized_name :=
  filterTier_shape h

theorem exactRawnameTier_shape {sample_anno o cn r}
    (h : exactRawnameTier sample_anno o cn = some r) :
    r.original_name = o ∧ r.cleaned_name = cn ∧ r.match_type = "exact_rawname" ∧
    r.match_confidence = "high" ∧ r.new_name = r.harmonized_name :=
  filterTier_shape h

theorem exactAlternateTier_shape {alt o cn r}
    (h : exactAlternateTier alt o cn = some r) :
    r.original_name = o ∧ r.cleaned_name = cn ∧ r.match_type = "exact_alternate" ∧
    r.match_confidence = "high" ∧ r.new_name = r.harmonized_name :=
  filterTier_shape h

theorem fuzzySampleIdTier_shape {sample_anno o cn sc r}
    (h : fuzzySampleIdTier sample_anno o cn sc = some r) :
    r.original_name = o ∧ r.cleaned_name = cn ∧ r.match_type = "fuzzy_sampleid" ∧
    r.match_confidence = "medium" ∧ r.new_name = r.harmonized_name := by
  simp only [fuzzySampleIdTier] at h
  split at h
  · exact filterTier_shape h
  · cases h

theorem fuzzyRawnameTier_shape {sample_anno o cn sc r}
    (h : fuzzyRawnameTier sample_anno o cn sc = some r) :
    r.original_name = o ∧ r.cleaned_name = cn ∧ r.match_type = "fuzzy_rawname" ∧
    r.match_confidence = "medium" ∧ r.new_name = r.harmonized_name := by
  simp only [fuzzyRawnameTier] at h
  split at h
  · exact filterTier_shape h
  · cases h

theorem fuzzyAlternateTier_shape {alt o cn sc r}
    (h : fuzzyAlternateTier alt o cn sc = some r) :
    r.original_name = o ∧ r.cleaned_name = cn ∧ r.match_type = "fuzzy_alternate" ∧
    r.match_confidence = "medium" ∧ r.new_name = r.harmonized_name := by
  simp only [fuzzyAlternateTier] at h
  split at h
  · exact filterTier_shape h
  · cases h

theorem subSampleIdTier_shape {sample_anno o cn r}
    (h : subSampleIdTier sample_anno o cn = some r) :
    r.original_name = o ∧ r.cleaned_name = cn ∧ r.match_type = "partial_sampleid" ∧
    r.match_confidence = "low" ∧ r.new_name = r.harmonized_name :=
  filterTier_shape h

theorem subRawnameTier_shape {sample_anno o cn r}
    (h : subRawnameTier sample_anno o cn = some r) :
    r.original_name = o ∧ r.cleaned_name = cn ∧ r.match_type = "partial_rawname" ∧
    r.match_confidence = "low" ∧ r.new_name = r.harmonized_name :=
  filterTier_shape h

theorem fuzzySampleTiers_shape {sample_anno alt o cn sc r}
    (h : fuzzySampleTiers sample_anno alt o cn sc = some r) : TierRowShape o cn r := by
  unfold fuzzySampleTiers at h
  split at h
  · cases h
    rename_i heq
    have := fuzzySampleIdTier_shape heq
    exact ⟨this.1, this.2.1, by simp [this.2.2.2.1], by simp [this.2.2.1], this.2.2.2.2⟩
  · split at h
    · cases h
      rename_i heq
      have := fuzzyRawnameTier_shape heq
      exact ⟨this.1, this.2.1, by simp [this.2.2.2.1], by simp [this.2.2.1], this.2.2.2.2⟩
    · have := fuzzyAlternateTier_shape h
      exact ⟨this.1, this.2.1, by simp [this.2.2.2.1], by simp [this.2.2.1], this.2.2.2.2⟩

theorem subSampleTiers_shape {sample_anno o cn r}
    (h : subSampleTiers sample_anno o cn = some r) : TierRowShape o cn r := by
  unfold subSampleTiers at h
  split at h
  · cases h
    rename_i heq
    have := subSampleIdTier_shape heq
    exact ⟨this.1, this.2.1, by simp [this.2.2.2.1], by simp [this.2.2.1], this.2.2.2.2⟩
  · have := subRawnameTier_shape h
    exact ⟨this.1, this.2.1, by simp [this.2.2.2.1], by simp [this.2.2.1], this.2.2.2.2⟩

/-- Master case analysis of one sample-loop iteration: the result is
the long-name bypass row, a successful tier row, or the no-match
fallback row. -/
theorem matchSampleName_shape (sample_anno : List SampleAnnoRow) (alt : List AltEntry)
    (md : ℚ) (mnl : ℕ) (o : String) :
    (matchSampleName sample_anno alt md mnl o).original_name = o ∧
    (matchSampleName sample_anno alt md mnl o).cleaned_name = _clean_name o ∧
    (((matchSampleName sample_anno alt md mnl o).match_type = "keep_original_long" ∧
      (matchSampleName sample_anno alt md mnl o).match_confidence = "medium" ∧
      (matchSampleName sample_anno alt md mnl o).harmonized_name = o ∧
      (matchSampleName sample_anno alt md mnl o).new_name = o ∧ 30 < o.length)
     ∨ TierRowShape o (_clean_name o) (matchSampleName sample_anno alt md mnl o)
     ∨ ((matchSampleName sample_anno alt md mnl o).match_type = "no_match" ∧
        (matchSampleName sample_anno alt md mnl o).match_confidence = "none" ∧
        (matchSampleName sample_anno alt md mnl o).harmonized_name = _clean_name o ∧
        (matchSampleName sample_anno alt md mnl o).new_name = o)) := by
  simp only [matchSampleName]
  split
  · rename_i hlen
    simp at hlen ⊢
    omega
  · split
    · rename_i r heq
      have h := exactSampleIdTier_shape heq
      refine ⟨h.1, h.2.1, Or.inr (Or.inl ⟨h.1, h.2.1, ?_, ?_, h.2.2.2.2⟩)⟩
      · simp [h.2.2.2.1]
      · simp [h.2.2.1]
    · split
      · rename_i r heq
        have h := exactRawnameTier_shape heq
        refine ⟨h.1, h.2.1, Or.inr (Or.inl ⟨h.1, h.2.1, ?_, ?_, h.2.2.2.2⟩)⟩
        · simp [h.2.2.2.1]
        · simp [h.2.2.1]
      · split
        · rename_i r heq
          have h := exactAlternateTier_shape heq
          refine ⟨h.1, h.2.1, Or.inr (Or.inl ⟨h.1, h.2.1, ?_, ?_, h.2.2.2.2⟩)⟩
          · simp [h.2.2.2.1]
          · simp [h.2.2.1]
        · split
          · rename_i r heq
            split at heq
            · have h := fuzzySampleTiers_shape heq
              exact ⟨h.1, h.2.1, Or.inr (Or.inl h)⟩
            · cases heq
          · split
            · rename_i r heq
              split at heq
              · have h := subSampleTiers_shape heq
                exact ⟨h.1, h.2.1, Or.inr (Or.inl h)⟩
              · cases heq
            · exact ⟨rfl, rfl, Or.inr (Or.inr ⟨rfl, rfl, rfl, rfl⟩)⟩

theorem exactDrugnameTier_shape {drug_anno o cn r}
    (h : exactDrugnameTier drug_anno o cn = some r) :
    r.original_name = o ∧ r.cleaned_name = cn ∧ r.match_type = "exact_drugname" ∧
    r.match_confidence = "high" ∧ r.new_name = r.harmonized_name :=
  filterTier_shape h

theorem exactDrugRawnameTier_shape {drug_anno o cn r}
    (h : exactDrugRawnameTier drug_anno o cn = some r) :
    r.original_name = o ∧ r.cleaned_name = cn ∧ r.match_type = "exact_rawname" ∧
    r.match_confidence = "high" ∧ r.new_name = r.harmonized_name :=
  filterTier_shape h

theorem fuzzyDrugnameTier_shape {drug_anno o cn sc r}
    (h : fuzzyDrugnameTier drug_anno o cn sc = some r) :
    r.original_name = o ∧ r.cleaned_name = cn ∧ r.match_type = "fuzzy_drugname" ∧
    r.match_confidence = "medium" ∧ r.new_name = r.harmonized_name := by
  simp only [fuzzyDrugnameTier] at h
  split at h
  · exact filterTier_shape h
  · cases h

theorem fuzzyDrugRawnameTier_shape {drug_anno o cn sc r}
    (h : fuzzyDrugRawnameTier drug_anno o cn sc = some r) :
    r.original_name = o ∧ r.cleaned_name = cn ∧ r.match_type = "fuzzy_rawname" ∧
    r.match_confidence = "medium" ∧ r.new_name = r.harmonized_name := by
  simp only [fuzzyDrugRawnameTier] at h
  split at h
  · exact filterTier_shape h
  · cases h

theorem subDrugnameTier_shape {drug_anno o cn r}
    (h : subDrugnameTier drug_anno o cn = some r) :
    r.original_name = o ∧ r.cleaned_name = cn ∧ r.match_type = "partial_drugname" ∧
    r.match_confidence = "low" ∧ r.new_name = r.harmonized_name :=
  filterTier_shape h

theorem subDrugRawnameTier_shape {drug_anno o cn r}
    (h : subDrugRawnameTier drug_anno o cn = some r) :
    r.original_name = o ∧ r.cleaned_name = cn ∧ r.match_type = "partial_rawname" ∧
    r.match_confidence = "low" ∧ r.new_name = r.harmonized_name :=
  filterTier_shape h

theorem fuzzyDrugTiers_shape {drug_anno o cn sc r}
    (h : fuzzyDrugTiers drug_anno o cn sc = some r) : TierRowShape o cn r := by
  unfold fuzzyDrugTiers at h
  split at h
  · cases h
    rename_i heq
    have := fuzzyDrugnameTier_shape heq
    exact ⟨this.1, this.2.1, by simp [this.2.2.2.1], by simp [this.2.2.1], this.2.2.2.2⟩
  · have := fuzzyDrugRawnameTier_shape h
    exact ⟨this.1, this.2.1, by simp [this.2.2.2.1], by simp [this.2.2.1], this.2.2.2.2⟩

theorem subDrugTiers_shape {drug_anno o cn r}
    (h : subDrugTiers drug_anno o cn = some r) : TierRowShape o cn r := by
  unfold subDrugTiers at h
  split at h
  · cases h
    rename_i heq
    have := subDrugnameTier_shape heq
    exact ⟨this.1, this.2.1, by simp [this.2.2.2.1], by simp [this.2.2.1], this.2.2.2.2⟩
  · have := subDrugRawnameTier_shape h
    exact ⟨this.1, this.2.1, by simp [this.2.2.2.1], by simp [this.2.2.1], this.2.2.2.2⟩

/-- Master case analysis of one drug-loop iteration. -/
theorem matchDrugName_shape (drug_anno : List DrugAnnoRow) (md : ℚ) (mnl th : ℕ)
    (o : String) :
    (matchDrugName drug_anno md mnl th o).original_name = o ∧
    (matchDrugName drug_anno md mnl th o).cleaned_name = _clean_drug_name o ∧
    (((matchDrugName drug_anno md mnl th o).match_type = "keep_original_long" ∧
      (matchDrugName drug_anno md mnl th o).match_confidence = "medium" ∧
      (matchDrugName drug_anno md mnl th o).harmonized_name = o ∧
      (matchDrugName drug_anno md mnl th o).new_name = o ∧ th < o.length)
     ∨ TierRowShape o (_clean_drug_name o) (matchDrugName drug_anno md mnl th o)
     ∨ ((matchDrugName drug_anno md mnl th o).match_type = "no_match" ∧
        (matchDrugName drug_anno md mnl th o).match_confidence = "none" ∧
        (matchDrugName drug_anno md mnl th o).harmonized_name = _clean_drug_name o ∧
        (matchDrugName drug_anno md mnl th o).new_name = o)) := by
  simp only [matchDrugName]
  split
  · rename_i hlen
    simp at hlen ⊢
    omega
  · split
    · rename_i r heq
      have h := exactDrugnameTier_shape heq
      refine ⟨h.1, h.2.1, Or.inr (Or.inl ⟨h.1, h.2.1, ?_, ?_, h.2.2.2.2⟩)⟩
      · simp [h.2.2.2.1]
      · simp [h.2.2.1]
    · split
      · rename_i r heq
        have h := exactDrugRawnameTier_shape heq
        refine ⟨h.1, h.2.1, Or.inr (Or.inl ⟨h.1, h.2.1, ?_, ?_, h.2.2.2.2⟩)⟩
        · simp [h.2.2.2.1]
        · simp [h.2.2.1]
      · split
        · rename_i r heq
          split at heq
          · have h := fuzzyDrugTiers_shape heq
            exact ⟨h.1, h.2.1, Or.inr (Or.inl h)⟩
          · cases heq
        · split
          · rename_i r heq
            split at heq
            · have h := subDrugTiers_shape heq
              exact ⟨h.1, h.2.1, Or.inr (Or.inl h)⟩
            · cases heq
          · exact ⟨rfl, rfl, Or.inr (Or.inr ⟨rfl, rfl, rfl, rfl⟩)⟩

/-- The basic no-match row emitted by the empty-reference-table branch
(harmonization.py lines 142-149): note `harmonized_name` and `new_name`
are the verbatim input there, not the cleaned name. -/
def emptySampleRow (n : String) : MatchRow :=
  { original_name := n, cleaned_name := _clean_name n, harmonized_name := n,
    match_type := "no_match", match_confidence := "none", new_name := n }

/-- Drug analogue of `emptySampleRow` (lines 426-433). -/
def emptyDrugRow (n : String) : MatchRow :=
  { original_name := n, cleaned_name := _clean_drug_name n, harmonized_name := n,
    match_type := "no_match", match_confidence := "none", new_name := n }

/-- The alternate mapping `check_droma_sample_names` builds (lines
157-182): present only when the `AlternateName` column exists. -/
def sampleAltMapping (db : Database) : List AltEntry :=
  if db.sampleAnnoHasAlternateNameCol then (db.sample_anno.map altEntries).flatten else []

theorem check_sample_ok_cases {db names md mnl rows}
    (h : check_droma_sample_names db names md mnl = Except.ok rows) :
    (db.sample_anno = [] ∧ rows = names.map emptySampleRow) ∨
    (db.sample_anno ≠ [] ∧
      rows = names.map (matchSampleName db.sample_anno (sampleAltMapping db) md mnl)) := by
  unfold check_droma_sample_names at h
  split at h
  · cases h
  · split at h
    · rename_i hne hemp
      cases h
      exact Or.inl ⟨List.isEmpty_iff.mp hemp, rfl⟩
    · rename_i hne hemp
      cases h
      refine Or.inr ⟨fun hcon => hemp (by simp [hcon]), ?_⟩
      rfl

theorem check_drug_ok_cases {db names md mnl th rows}
    (h : check_droma_drug_names db names md mnl th = Except.ok rows) :
    (db.drug_anno = [] ∧ rows = names.map emptyDrugRow) ∨
    (db.drug_anno ≠ [] ∧ rows = names.map (matchDrugName db.drug_anno md mnl th)) := by
  unfold check_droma_drug_names at h
  split at h
  · cases h
  · split at h
    · rename_i hne hemp
      cases h
      exact Or.inl ⟨List.isEmpty_iff.mp hemp, rfl⟩
    · rename_i hne hemp
      cases h
      refine Or.inr ⟨fun hcon => hemp (by simp [hcon]), ?_⟩
      rfl

/-- Claim C1: every successful harmonization call returns exactly one
result row per input name, in input order, each echoing the verbatim
input in `original_name` (so in particular the output has the same
length as the input list). -/
theorem C1_one_row_per_input :
    (∀ (db : Database) (names : List String) (md : ℚ) (mnl : ℕ) (rows : List MatchRow),
       check_droma_sample_names db names md mnl = Except.ok rows →
       rows.map MatchRow.original_name = names) ∧
    (∀ (db : Database) (names : List String) (md : ℚ) (mnl th : ℕ) (rows : List MatchRow),
       check_droma_drug_names db names md mnl th = Except.ok rows →
       rows.map MatchRow.original_name = names) := by
  constructor
  · intro db names md mnl rows h
    rcases check_sample_ok_cases h with ⟨_, hrows⟩ | ⟨_, hrows⟩
    · subst hrows
      rw [List.map_map]
      have : (MatchRow.original_name ∘ emptySampleRow) = fun n => n := rfl
      rw [this, List.map_id']
    · subst hrows
      rw [List.map_map]
      have : (MatchRow.original_name ∘ matchSampleName db.sample_anno (sampleAltMapping db) md mnl) =
          fun n => n := by
        funext n
        exact (matchSampleName_shape db.sample_anno (sampleAltMapping db) md mnl n).1
      rw [this, List.map_id']
  · intro db names md mnl th rows h
    rcases check_drug_ok_cases h with ⟨_, hrows⟩ | ⟨_, hrows⟩
    · subst hrows
      rw [List.map_map]
      have : (MatchRow.original_name ∘ emptyDrugRow) = fun n => n := rfl
      rw [this, List.map_id']
    · subst hrows
      rw [List.map_map]
      have : (MatchRow.original_name ∘ matchDrugName db.drug_anno md mnl th) = fun n => n := by
        funext n
        exact (matchDrugName_shape db.drug_anno md mnl th n).1
      rw [this, List.map_id']

/-- A small concrete store used to instantiate the hypothesis-bearing
theorems on explicit inputs. -/
def exDb : Database :=
  { tables := ["sample_anno", "drug_anno"],
    sample_anno := [{ SampleID := "MCF7", ProjectRawName := "MCF-7 cells",
                      AlternateName := some "MCF.7 | mcf7wt" }],
    sampleAnnoHasAlternateNameCol := true,
    drug_anno := [{ DrugName := "Cisplatin", ProjectRawName := "cis-platin" }] }

/-- The rows `check_droma_sample_names exDb ["mcf-7", "zz"] 0.2 5`
produces. -/
def exSampleRows : List MatchRow :=
  [{ original_name := "mcf-7", cleaned_name := "mcf7", harmonized_name := "MCF7",
     match_type := "exact_sampleid", match_confidence := "high", new_name := "MCF7" },
   { original_name := "zz", cleaned_name := "zz", harmonized_name := "zz",
     match_type := "no_match", match_confidence := "none", new_name := "zz" }]

/-- The rows `check_droma_drug_names exDb ["CIS-PLATIN", "qq"] 0.2 5 17`
produces. -/
def exDrugRows : List MatchRow :=
  [{ original_name := "CIS-PLATIN", cleaned_name := "cis platin", harmonized_name := "Cisplatin",
     match_type := "exact_rawname", match_confidence := "high", new_name := "Cisplatin" },
   { original_name := "qq", cleaned_name := "qq", harmonized_name := "qq",
     match_type := "no_match", match_confidence := "none", new_name := "qq" }]

theorem exSampleRows_spec :
    check_droma_sample_names exDb ["mcf-7", "zz"] (2/10) 5 = Except.ok exSampleRows := by
  rfl

theorem exDrugRows_spec :
    check_droma_drug_names exDb ["CIS-PLATIN", "qq"] (2/10) 5 17 = Except.ok exDrugRows := by
  rfl

/-- Witness for C1 at a concrete store and input list. -/
theorem C1_one_row_per_input_witness :
    exSampleRows.map MatchRow.original_name = ["mcf-7", "zz"] ∧
    exDrugRows.map MatchRow.original_name = ["CIS-PLATIN", "qq"] :=
  ⟨C1_one_row_per_input.1 exDb ["mcf-7", "zz"] (2/10) 5 exSampleRows exSampleRows_spec,
   C1_one_row_per_input.2 exDb ["CIS-PLATIN", "qq"] (2/10) 5 17 exDrugRows exDrugRows_spec⟩

/-- Claim C2: in every result row of either harmonization function,
`match_confidence = "none"` holds exactly when `match_type =
"no_match"`. -/
theorem C2_confidence_none_iff_no_match :
    (∀ (db : Database) (names : List String) (md : ℚ) (mnl : ℕ) (rows : List MatchRow),
       check_droma_sample_names db names md mnl = Except.ok rows →
       ∀ r ∈ rows, (r.match_confidence = "none" ↔ r.match_type = "no_match")) ∧
    (∀ (db : Database) (names : List String) (md : ℚ) (mnl th : ℕ) (rows : List MatchRow),
       check_droma_drug_names db names md mnl th = Except.ok rows →
       ∀ r ∈ rows, (r.match_confidence = "none" ↔ r.match_type = "no_match")) := by
  constructor
  · intro db names md mnl rows h r hr
    rcases check_sample_ok_cases h with ⟨_, hrows⟩ | ⟨_, hrows⟩
    · subst hrows
      rcases List.mem_map.mp hr with ⟨n, _, rfl⟩
      simp [emptySampleRow]
    · subst hrows
      rcases List.mem_map.mp hr with ⟨n, _, rfl⟩
      rcases (matchSampleName_shape db.sample_anno (sampleAltMapping db) md mnl n).2.2 with
        hk | ht | hn
      · rw [hk.1, hk.2.1]
        decide
      · rcases ht with ⟨_, _, hconf, htype, _⟩
        constructor
        · intro hc
          rw [hc] at hconf
          exact absurd hconf (by decide)
        · intro hc
          rw [hc] at htype
          exact absurd htype (by decide)
      · rw [hn.1, hn.2.1]
        decide
  · intro db names md mnl th rows h r hr
    rcases check_drug_ok_cases h with ⟨_, hrows⟩ | ⟨_, hrows⟩
    · subst hrows
      rcases List.mem_map.mp hr with ⟨n, _, rfl⟩
      simp [emptyDrugRow]
    · subst hrows
      rcases List.mem_map.mp hr with ⟨n, _, rfl⟩
      rcases (matchDrugName_shape db.drug_anno md mnl th n).2.2 with hk | ht | hn
      · rw [hk.1, hk.2.1]
        decide
      · rcases ht with ⟨_, _, hconf, htype, _⟩
        constructor
        · intro hc
          rw [hc] at hconf
          exact absurd hconf (by decide)
        · intro hc
          rw [hc] at htype
          exact absurd htype (by decide)
      · rw [hn.1, hn.2.1]
        decide

/-- Witness for C2 on a concrete matched row and a concrete unmatched
row. -/
theorem C2_witness :
    (({ original_name := "mcf-7", cleaned_name := "mcf7", harmonized_name := "MCF7",
        match_type := "exact_sampleid", match_confidence := "high",
        new_name := "MCF7" } : MatchRow).match_confidence = "none" ↔
     ({ original_name := "mcf-7", cleaned_name := "mcf7", harmonized_name := "MCF7",
        match_type := "exact_sampleid", match_confidence := "high",
        new_name := "MCF7" } : MatchRow).match_type = "no_match") ∧
    (({ original_name := "zz", cleaned_name := "zz", harmonized_name := "zz",
        match_type := "no_match", match_confidence := "none",
        new_name := "zz" } : MatchRow).match_confidence = "none" ↔
     ({ original_name := "zz", cleaned_name := "zz", harmonized_name := "zz",
        match_type := "no_match", match_confidence := "none",
        new_name := "zz" } : MatchRow).match_type = "no_match") :=
  ⟨C2_confidence_none_iff_no_match.1 exDb ["mcf-7", "zz"] (2/10) 5 exSampleRows
     exSampleRows_spec _ (by decide),
   C2_confidence_none_iff_no_match.1 exDb ["mcf-7", "zz"] (2/10) 5 exSampleRows
     exSampleRows_spec _ (by decide)⟩

/-- Claim C3: a missing reference table makes either call fail with the
table-not-found error (no row is produced); an existing but empty
reference table produces a normal result where every row is
`no_match` / `none`. -/
theorem C3_missing_vs_empty_table :
    (∀ (db : Database) (names : List String) (md : ℚ) (mnl : ℕ),
       "sample_anno" ∉ db.tables →
       check_droma_sample_names db names md mnl = Except.error
         (.DROMATableError "Sample annotation table 'sample_anno' not found in database")) ∧
    (∀ (db : Database) (names : List String) (md : ℚ) (mnl : ℕ),
       "sample_anno" ∈ db.tables → db.sample_anno = [] →
       ∃ rows, check_droma_sample_names db names md mnl = Except.ok rows ∧
         rows.length = names.length ∧
         ∀ r ∈ rows, r.match_type = "no_match" ∧ r.match_confidence = "none") ∧
    (∀ (db : Database) (names : List String) (md : ℚ) (mnl th : ℕ),
       "drug_anno" ∉ db.tables →
       check_droma_drug_names db names md mnl th = Except.error
         (.DROMATableError "Drug annotation table 'drug_anno' not found in database")) ∧
    (∀ (db : Database) (names : List String) (md : ℚ) (mnl th : ℕ),
       "drug_anno" ∈ db.tables → db.drug_anno = [] →
       ∃ rows, check_droma_drug_names db names md mnl th = Except.ok rows ∧
         rows.length = names.length ∧
         ∀ r ∈ rows, r.match_type = "no_match" ∧ r.match_confidence = "none") := by
  refine ⟨?_, ?_, ?_, ?_⟩
  · intro db names md mnl habs
    simp [check_droma_sample_names, habs]
  · intro db names md mnl hmem hemp
    refine ⟨names.map emptySampleRow, ?_, by simp, ?_⟩
    · simp [check_droma_sample_names, hmem, hemp, emptySampleRow]
    · intro r hr
      rcases List.mem_map.mp hr with ⟨n, _, rfl⟩
      exact ⟨rfl, rfl⟩
  · intro db names md mnl th habs
    simp [check_droma_drug_names, habs]
  · intro db names md mnl th hmem hemp
    refine ⟨names.map emptyDrugRow, ?_, by simp, ?_⟩
    · simp [check_droma_drug_names, hmem, hemp, emptyDrugRow]
    · intro r hr
      rcases List.mem_map.mp hr with ⟨n, _, rfl⟩
      exact ⟨rfl, rfl⟩

/-- A store advertising no tables at all. -/
def noTablesDb : Database :=
  { tables := [], sample_anno := [], sampleAnnoHasAlternateNameCol := false, drug_anno := [] }

/-- A store whose annotation tables exist but hold no rows. -/
def emptyTablesDb : Database :=
  { tables := ["sample_anno", "drug_anno"], sample_anno := [],
    sampleAnnoHasAlternateNameCol := false, drug_anno := [] }

/-- Witness for C3 at concrete stores. -/
theorem C3_witness :
    check_droma_sample_names noTablesDb ["MCF-7"] (2/10) 5 = Except.error
      (.DROMATableError "Sample annotation table 'sample_anno' not found in database") ∧
    (∃ rows, check_droma_sample_names emptyTablesDb ["MCF-7"] (2/10) 5 = Except.ok rows ∧
       rows.length = (["MCF-7"] : List String).length ∧
       ∀ r ∈ rows, r.match_type = "no_match" ∧ r.match_confidence = "none") ∧
    check_droma_drug_names noTablesDb ["Cisplatin"] (2/10) 5 17 = Except.error
      (.DROMATableError "Drug annotation table 'drug_anno' not found in database") ∧
    (∃ rows, check_droma_drug_names emptyTablesDb ["Cisplatin"] (2/10) 5 17 = Except.ok rows ∧
       rows.length = (["Cisplatin"] : List String).length ∧
       ∀ r ∈ rows, r.match_type = "no_match" ∧ r.match_confidence = "none") :=
  ⟨C3_missing_vs_empty_table.1 noTablesDb ["MCF-7"] (2/10) 5 (by decide),
   C3_missing_vs_empty_table.2.1 emptyTablesDb ["MCF-7"] (2/10) 5 (by decide) rfl,
   C3_missing_vs_empty_table.2.2.1 noTablesDb ["Cisplatin"] (2/10) 5 17 (by decide),
   C3_missing_vs_empty_table.2.2.2 emptyTablesDb ["Cisplatin"] (2/10) 5 17 (by decide) rfl⟩

/-- A 31-character name (over the 30-character sample threshold). -/
def longSampleName : String := "aaaaaaaaaaaaaaaaaaaaaaaaaaaaaaa"

/-- An 18-character name (over the 17-character drug threshold). -/
def longDrugName : String := "aaaaaaaaaaaaaaaaaa"

/-- Counterexample to C5 as stated: with an existing but empty
reference table, an over-threshold input does `not` bypass into
`keep_original_long`; the empty-table branch labels it `no_match`
(with `none`, not `medium`) instead. -/
theorem C5_counterexample :
    30 < longSampleName.length ∧
    check_droma_sample_names emptyTablesDb [longSampleName] (2/10) 5 =
      Except.ok [{ original_name := longSampleName, cleaned_name := longSampleName,
                   harmonized_name := longSampleName, match_type := "no_match",
                   match_confidence := "none", new_name := longSampleName }] ∧
    ("no_match" : String) ≠ "keep_original_long" :=
  ⟨by decide, by rfl, by decide⟩

theorem matchSampleName_long {sample_anno : List SampleAnnoRow} {alt : List AltEntry}
    {md : ℚ} {mnl : ℕ} {o : String} (h : 30 < o.length) :
    matchSampleName sample_anno alt md mnl o =
      { original_name := o, cleaned_name := _clean_name o, harmonized_name := o,
        match_type := "keep_original_long", match_confidence := "medium", new_name := o } := by
  simp [matchSampleName, h]

theorem matchDrugName_long {drug_anno : List DrugAnnoRow} {md : ℚ} {mnl th : ℕ}
    {o : String} (h : th < o.length) :
    matchDrugName drug_anno md mnl th o =
      { original_name := o, cleaned_name := _clean_drug_name o, harmonized_name := o,
        match_type := "keep_original_long", match_confidence := "medium", new_name := o } := by
  simp [matchDrugName, h]

/-- Claim C5 as amended: provided the reference table is non-empty,
every over-threshold input (31+ characters for samples with the
hard-coded 30, 18+ for drugs at the default threshold 17) bypasses all
matching and yields `keep_original_long` / `medium` with the original
name kept.  (With an empty reference table the early-return branch
instead labels every input `no_match`.) -/
theorem C5_long_name_bypass_amended :
    (∀ (db : Database) (names : List String) (md : ℚ) (mnl : ℕ) (rows : List MatchRow),
       check_droma_sample_names db names md mnl = Except.ok rows →
       db.sample_anno ≠ [] → ∀ r ∈ rows, 30 < r.original_name.length →
         r.match_type = "keep_original_long" ∧ r.match_confidence = "medium" ∧
         r.harmonized_name = r.original_name ∧ r.new_name = r.original_name) ∧
    (∀ (db : Database) (names : List String) (md : ℚ) (mnl : ℕ) (rows : List MatchRow),
       check_droma_drug_names db names md mnl 17 = Except.ok rows →
       db.drug_anno ≠ [] → ∀ r ∈ rows, 17 < r.original_name.length →
         r.match_type = "keep_original_long" ∧ r.match_confidence = "medium" ∧
         r.harmonized_name = r.original_name ∧ r.new_name = r.original_name) := by
  constructor
  · intro db names md mnl rows h hne r hr hlen
    rcases check_sample_ok_cases h with ⟨hemp, _⟩ | ⟨_, hrows⟩
    · exact absurd hemp hne
    · subst hrows
      rcases List.mem_map.mp hr with ⟨n, _, rfl⟩
      rw [(matchSampleName_shape db.sample_anno (sampleAltMapping db) md mnl n).1] at hlen
      rw [matchSampleName_long hlen]
      exact ⟨rfl, rfl, rfl, rfl⟩
  · intro db names md mnl rows h hne r hr hlen
    rcases check_drug_ok_cases h with ⟨hemp, _⟩ | ⟨_, hrows⟩
    · exact absurd hemp hne
    · subst hrows
      rcases List.mem_map.mp hr with ⟨n, _, rfl⟩
      rw [(matchDrugName_shape db.drug_anno md mnl 17 n).1] at hlen
      rw [matchDrugName_long hlen]
      exact ⟨rfl, rfl, rfl, rfl⟩

/-- Witness for the amended C5 at a concrete non-empty store. -/
theorem C5_long_name_bypass_witness :
    (({ original_name := longSampleName, cleaned_name := _clean_name longSampleName,
        harmonized_name := longSampleName, match_type := "keep_original_long",
        match_confidence := "medium", new_name := longSampleName } : MatchRow).match_type =
          "keep_original_long" ∧
     ({ original_name := longSampleName, cleaned_name := _clean_name longSampleName,
        harmonized_name := longSampleName, match_type := "keep_original_long",
        match_confidence := "medium", new_name := longSampleName } : MatchRow).match_confidence =
          "medium" ∧
     ({ original_name := longSampleName, cleaned_name := _clean_name longSampleName,
        harmonized_name := longSampleName, match_type := "keep_original_long",
        match_confidence := "medium", new_name := longSampleName } : MatchRow).harmonized_name =
          longSampleName ∧
     ({ original_name := longSampleName, cleaned_name := _clean_name longSampleName,
        harmonized_name := longSampleName, match_type := "keep_original_long",
        match_confidence := "medium", new_name := longSampleName } : MatchRow).new_name =
          longSampleName) ∧
    (({ original_name := longDrugName, cleaned_name := _clean_drug_name longDrugName,
        harmonized_name := longDrugName, match_type := "keep_original_long",
        match_confidence := "medium", new_name := longDrugName } : MatchRow).match_type =
          "keep_original_long" ∧
     ({ original_name := longDrugName, cleaned_name := _clean_drug_name longDrugName,
        harmonized_name := longDrugName, match_type := "keep_original_long",
        match_confidence := "medium", new_name := longDrugName } : MatchRow).match_confidence =
          "medium" ∧
     ({ original_name := longDrugName, cleaned_name := _clean_drug_name longDrugName,
        harmonized_name := longDrugName, match_type := "keep_original_long",
        match_confidence := "medium", new_name := longDrugName } : MatchRow).harmonized_name =
          longDrugName ∧
     ({ original_name := longDrugName, cleaned_name := _clean_drug_name longDrugName,
        harmonized_name := longDrugName, match_type := "keep_original_long",
        match_confidence := "medium", new_name := longDrugName } : MatchRow).new_name =
          longDrugName) :=
  ⟨C5_long_name_bypass_amended.1 exDb [longSampleName] (2/10) 5 _ rfl (by decide) _
     (by exact List.mem_singleton.mpr rfl) (by decide),
   C5_long_name_bypass_amended.2 exDb [longDrugName] (2/10) 5 _ rfl (by decide) _
     (by exact List.mem_singleton.mpr rfl) (by decide)⟩

/-- Counterexample to C6 as stated: in the empty-reference-table
branch, a `no_match` row's `harmonized_name` is the verbatim original
name (`"MCF-7"`), not the cleaned name (`"mcf7"`). -/
theorem C6_counterexample :
    check_droma_sample_names emptyTablesDb ["MCF-7"] (2/10) 5 =
      Except.ok [{ original_name := "MCF-7", cleaned_name := "mcf7",
                   harmonized_name := "MCF-7", match_type := "no_match",
                   match_confidence := "none", new_name := "MCF-7" }] ∧
    ("MCF-7" : String) ≠ "mcf7" :=
  ⟨by rfl, by decide⟩

/-- Claim C6 as amended: `new_name` equals the verbatim original input
on every `no_match` row and mirrors `harmonized_name` on every other
row; a `no_match` row's `harmonized_name` is the cleaned name when the
reference table is non-empty, while the empty-table branch sets
`harmonized_name` to the original name on every row. -/
theorem C6_new_name_amended :
    (∀ (db : Database) (names : List String) (md : ℚ) (mnl : ℕ) (rows : List MatchRow),
       check_droma_sample_names db names md mnl = Except.ok rows →
       ∀ r ∈ rows,
         (r.match_type = "no_match" → r.new_name = r.original_name) ∧
         (r.match_type ≠ "no_match" → r.new_name = r.harmonized_name) ∧
         (r.match_type = "no_match" → db.sample_anno ≠ [] →
           r.harmonized_name = r.cleaned_name) ∧
         (db.sample_anno = [] → r.harmonized_name = r.original_name)) ∧
    (∀ (db : Database) (names : List String) (md : ℚ) (mnl th : ℕ) (rows : List MatchRow),
       check_droma_drug_names db names md mnl th = Except.ok rows →
       ∀ r ∈ rows,
         (r.match_type = "no_match" → r.new_name = r.original_name) ∧
         (r.match_type ≠ "no_match" → r.new_name = r.harmonized_name) ∧
         (r.match_type = "no_match" → db.drug_anno ≠ [] →
           r.harmonized_name = r.cleaned_name) ∧
         (db.drug_anno = [] → r.harmonized_name = r.original_name)) := by
  constructor
  · intro db names md mnl rows h r hr
    rcases check_sample_ok_cases h with ⟨hemp, hrows⟩ | ⟨hne, hrows⟩
    · subst hrows
      rcases List.mem_map.mp hr with ⟨n, _, rfl⟩
      exact ⟨fun _ => rfl, fun hne2 => absurd rfl hne2, fun _ hne2 => absurd hemp hne2,
        fun _ => rfl⟩
    · subst hrows
      rcases List.mem_map.mp hr with ⟨n, _, rfl⟩
      have hs := matchSampleName_shape db.sample_anno (sampleAltMapping db) md mnl n
      rcases hs.2.2 with hk | ht | hn
      · refine ⟨fun hc => ?_, fun _ => ?_, fun hc _ => ?_, fun hemp2 => absurd hemp2 hne⟩
        · rw [hk.1] at hc
          exact absurd hc (by decide)
        · rw [hk.2.2.1, hk.2.2.2.1]
        · rw [hk.1] at hc
          exact absurd hc (by decide)
      · rcases ht with ⟨_, _, _, htype, hnew⟩
        refine ⟨fun hc => ?_, fun _ => hnew, fun hc _ => ?_, fun hemp2 => absurd hemp2 hne⟩
        · rw [hc] at htype
          exact absurd htype (by decide)
        · rw [hc] at htype
          exact absurd htype (by decide)
      · refine ⟨fun _ => ?_, fun hne2 => absurd hn.1 hne2, fun _ _ => ?_,
          fun hemp2 => absurd hemp2 hne⟩
        · rw [hn.2.2.2, hs.1]
        · rw [hn.2.2.1, hs.2.1]
  · intro db names md mnl th rows h r hr
    rcases check_drug_ok_cases h with ⟨hemp, hrows⟩ | ⟨hne, hrows⟩
    · subst hrows
      rcases List.mem_map.mp hr with ⟨n, _, rfl⟩
      exact ⟨fun _ => rfl, fun hne2 => absurd rfl hne2, fun _ hne2 => absurd hemp hne2,
        fun _ => rfl⟩
    · subst hrows
      rcases List.mem_map.mp hr with ⟨n, _, rfl⟩
      have hs := matchDrugName_shape db.drug_anno md mnl th n
      rcases hs.2.2 with hk | ht | hn
      · refine ⟨fun hc => ?_, fun _ => ?_, fun hc _ => ?_, fun hemp2 => absurd hemp2 hne⟩
        · rw [hk.1] at hc
          exact absurd hc (by decide)
        · rw [hk.2.2.1, hk.2.2.2.1]
        · rw [hk.1] at hc
          exact absurd hc (by decide)
      · rcases ht with ⟨_, _, _, htype, hnew⟩
        refine ⟨fun hc => ?_, fun _ => hnew, fun hc _ => ?_, fun hemp2 => absurd hemp2 hne⟩
        · rw [hc] at htype
          exact absurd htype (by decide)
        · rw [hc] at htype
          exact absurd htype (by decide)
      · refine ⟨fun _ => ?_, fun hne2 => absurd hn.1 hne2, fun _ _ => ?_,
          fun hemp2 => absurd hemp2 hne⟩
        · rw [hn.2.2.2, hs.1]
        · rw [hn.2.2.1, hs.2.1]

/-- Witness for the amended C6 on a concrete unmatched row from a
non-empty store. -/
theorem C6_new_name_witness :
    (({ original_name := "zz", cleaned_name := "zz", harmonized_name := "zz",
        match_type := "no_match", match_confidence := "none",
        new_name := "zz" } : MatchRow).match_type = "no_match" →
      ({ original_name := "zz", cleaned_name := "zz", harmonized_name := "zz",
         match_type := "no_match", match_confidence := "none",
         new_name := "zz" } : MatchRow).new_name = "zz") ∧
    (exDb.sample_anno ≠ [] →
      ({ original_name := "zz", cleaned_name := "zz", harmonized_name := "zz",
         match_type := "no_match", match_confidence := "none",
         new_name := "zz" } : MatchRow).harmonized_name = "zz") := by
  have h := C6_new_name_amended.1 exDb ["mcf-7", "zz"] (2/10) 5 exSampleRows
    exSampleRows_spec
    ({ original_name := "zz", cleaned_name := "zz", harmonized_name := "zz",
       match_type := "no_match", match_confidence := "none", new_name := "zz" } : MatchRow)
    (by decide)
  exact ⟨fun hm => h.1 hm, fun hne => h.2.2.1 rfl hne⟩

/-- A store whose reference ids canonicalize to the empty string
(`"()"` cleans to `""` in both profiles). -/
def c4Db : Database :=
  { tables := ["sample_anno", "drug_anno"],
    sample_anno := [{ SampleID := "()", ProjectRawName := "x", AlternateName := none }],
    sampleAnnoHasAlternateNameCol := false,
    drug_anno := [{ DrugName := "()", ProjectRawName := "x" }] }

/-- Counterexample to C4 as stated: the exact tiers are attempted even
for an empty canonicalized input, and match any reference row whose own
canonicalized field is empty. -/
theorem C4_counterexample :
    _clean_name "" = "" ∧ ("" : String).length ≤ 30 ∧
    check_droma_sample_names c4Db [""] (2/10) 5 =
      Except.ok [{ original_name := "", cleaned_name := "", harmonized_name := "()",
                   match_type := "exact_sampleid", match_confidence := "high",
                   new_name := "()" }] ∧
    _clean_drug_name "" = "" ∧ ("" : String).length ≤ 17 ∧
    check_droma_drug_names c4Db [""] (2/10) 5 17 =
      Except.ok [{ original_name := "", cleaned_name := "", harmonized_name := "()",
                   match_type := "exact_drugname", match_confidence := "high",
                   new_name := "()" }] :=
  ⟨rfl, by decide, by rfl, rfl, by decide, by rfl⟩

theorem filterTier_eq_none {α : Type} {l : List α} {p : α → Bool} {mk : α → MatchRow}
    (h : ∀ a ∈ l, ¬ p a = true) : filterTier l p mk = none := by
  unfold filterTier
  have : l.filter p = [] := List.filter_eq_nil.mpr h
  rw [this]

theorem fuzzySampleTiers_type {sample_anno alt o cn sc r}
    (h : fuzzySampleTiers sample_anno alt o cn sc = some r) :
    r.match_type ∈ (["fuzzy_sampleid", "fuzzy_rawname", "fuzzy_alternate"] : List String) := by
  unfold fuzzySampleTiers at h
  split at h
  · cases h
    rename_i heq
    simp [(fuzzySampleIdTier_shape heq).2.2.1]
  · split at h
    · cases h
      rename_i heq
      simp [(fuzzyRawnameTier_shape heq).2.2.1]
    · simp [(fuzzyAlternateTier_shape h).2.2.1]

theorem subSampleTiers_type {sample_anno o cn r}
    (h : subSampleTiers sample_anno o cn = some r) :
    r.match_type ∈ (["partial_sampleid", "partial_rawname"] : List String) := by
  unfold subSampleTiers at h
  split at h
  · cases h
    rename_i heq
    simp [(subSampleIdTier_shape heq).2.2.1]
  · simp [(subRawnameTier_shape h).2.2.1]

theorem fuzzyDrugTiers_type {drug_anno o cn sc r}
    (h : fuzzyDrugTiers drug_anno o cn sc = some r) :
    r.match_type ∈ (["fuzzy_drugname", "fuzzy_rawname"] : List String) := by
  unfold fuzzyDrugTiers at h
  split at h
  · cases h
    rename_i heq
    simp [(fuzzyDrugnameTier_shape heq).2.2.1]
  · simp [(fuzzyDrugRawnameTier_shape h).2.2.1]

theorem subDrugTiers_type {drug_anno o cn r}
    (h : subDrugTiers drug_anno o cn = some r) :
    r.match_type ∈ (["partial_drugname", "partial_rawname"] : List String) := by
  unfold subDrugTiers at h
  split at h
  · cases h
    rename_i heq
    simp [(subDrugnameTier_shape heq).2.2.1]
  · simp [(subDrugRawnameTier_shape h).2.2.1]

theorem matchSampleName_no_exact {sample_anno : List SampleAnnoRow} {alt : List AltEntry}
    {md : ℚ} {mnl : ℕ} {o : String} (hlen : ¬ o.length > 30)
    (h1 : exactSampleIdTier sample_anno o (_clean_name o) = none)
    (h2 : exactRawnameTier sample_anno o (_clean_name o) = none)
    (h3 : exactAlternateTier alt o (_clean_name o) = none) :
    (matchSampleName sample_anno alt md mnl o).match_type ∈
      (["fuzzy_sampleid", "fuzzy_rawname", "fuzzy_alternate", "partial_sampleid",
        "partial_rawname", "no_match"] : List String) := by
  simp only [matchSampleName, if_neg hlen, h1, h2, h3]
  split
  · rename_i r heq
    split at heq
    · rename_i hcond
      have h := fuzzySampleTiers_type heq
      clear heq h1 h2 h3 hlen hcond
      simp only [List.mem_cons, List.not_mem_nil, or_false] at h ⊢
      tauto
    · cases heq
  · rename_i hfz
    split
    · rename_i r heq
      split at heq
      · rename_i hcond
        have h := subSampleTiers_type heq
        clear heq h1 h2 h3 hlen hcond hfz
        simp only [List.mem_cons, List.not_mem_nil, or_false] at h ⊢
        tauto
      · cases heq
    · show ("no_match" : String) ∈ _
      decide

theorem matchDrugName_no_exact {drug_anno : List DrugAnnoRow} {md : ℚ} {mnl th : ℕ}
    {o : String} (hlen : ¬ o.length > th)
    (h1 : exactDrugnameTier drug_anno o (_clean_drug_name o) = none)
    (h2 : exactDrugRawnameTier drug_anno o (_clean_drug_name o) = none) :
    (matchDrugName drug_anno md mnl th o).match_type ∈
      (["fuzzy_drugname", "fuzzy_rawname", "partial_drugname", "partial_rawname",
        "no_match"] : List String) := by
  simp only [matchDrugName, if_neg hlen, h1, h2]
  split
  · rename_i r heq
    split at heq
    · rename_i hcond
      have h := fuzzyDrugTiers_type heq
      clear heq h1 h2 hlen hcond
      simp only [List.mem_cons, List.not_mem_nil, or_false] at h ⊢
      tauto
    · cases heq
  · rename_i hfz
    split
    · rename_i r heq
      split at heq
      · rename_i hcond
        have h := subDrugTiers_type heq
        clear heq h1 h2 hlen hcond hfz
        simp only [List.mem_cons, List.not_mem_nil, or_false] at h ⊢
        tauto
      · cases heq
    · show ("no_match" : String) ∈ _
      decide

/-- Claim C4 as amended: the exact tiers are attempted regardless of
whether the canonicalized input is empty; what holds is that an input
with empty canonicalized form (within the long-name threshold) can only
exact-match a reference entry whose own canonicalized field is empty.
Hence, whenever no reference id, raw name or alternate entry
canonicalizes to the empty string, no exact tier fires for such an
input. -/
theorem C4_exact_tiers_amended :
    (∀ (db : Database) (names : List String) (md : ℚ) (mnl : ℕ) (rows : List MatchRow),
       check_droma_sample_names db names md mnl = Except.ok rows →
       (∀ a ∈ db.sample_anno,
          _clean_name a.SampleID ≠ "" ∧ _clean_name a.ProjectRawName ≠ "") →
       (∀ e ∈ sampleAltMapping db, e.clean_name ≠ "") →
       ∀ r ∈ rows, r.cleaned_name = "" → ¬ r.original_name.length > 30 →
         r.match_type ≠ "exact_sampleid" ∧ r.match_type ≠ "exact_rawname" ∧
         r.match_type ≠ "exact_alternate") ∧
    (∀ (db : Database) (names : List String) (md : ℚ) (mnl th : ℕ) (rows : List MatchRow),
       check_droma_drug_names db names md mnl th = Except.ok rows →
       (∀ a ∈ db.drug_anno,
          _clean_drug_name a.DrugName ≠ "" ∧ _clean_drug_name a.ProjectRawName ≠ "") →
       ∀ r ∈ rows, r.cleaned_name = "" → ¬ r.original_name.length > th →
         r.match_type ≠ "exact_drugname" ∧ r.match_type ≠ "exact_rawname") := by
  constructor
  · intro db names md mnl rows h hanno halt r hr hc hlen
    rcases check_sample_ok_cases h with ⟨_, hrows⟩ | ⟨_, hrows⟩
    · subst hrows
      rcases List.mem_map.mp hr with ⟨n, _, rfl⟩
      exact ⟨(by decide : ("no_match" : String) ≠ "exact_sampleid"),
        (by decide : ("no_match" : String) ≠ "exact_rawname"),
        (by decide : ("no_match" : String) ≠ "exact_alternate")⟩
    · subst hrows
      rcases List.mem_map.mp hr with ⟨n, _, rfl⟩
      have hs := matchSampleName_shape db.sample_anno (sampleAltMapping db) md mnl n
      rw [hs.2.1] at hc
      rw [hs.1] at hlen
      have h1 : exactSampleIdTier db.sample_anno n (_clean_name n) = none := by
        unfold exactSampleIdTier
        apply filterTier_eq_none
        intro a ha
        simp only [hc, beq_iff_eq]
        exact (hanno a ha).1
      have h2 : exactRawnameTier db.sample_anno n (_clean_name n) = none := by
        unfold exactRawnameTier
        apply filterTier_eq_none
        intro a ha
        simp only [hc, beq_iff_eq]
        exact (hanno a ha).2
      have h3 : exactAlternateTier (sampleAltMapping db) n (_clean_name n) = none := by
        unfold exactAlternateTier
        apply filterTier_eq_none
        intro e he
        simp only [hc, beq_iff_eq]
        exact halt e he
      have hmem := @matchSampleName_no_exact db.sample_anno (sampleAltMapping db) md mnl n hlen h1 h2 h3
      have hsafe : ∀ t ∈ (["fuzzy_sampleid", "fuzzy_rawname", "fuzzy_alternate",
          "partial_sampleid", "partial_rawname", "no_match"] : List String),
          t ≠ "exact_sampleid" ∧ t ≠ "exact_rawname" ∧ t ≠ "exact_alternate" := by decide
      exact hsafe _ hmem
  · intro db names md mnl th rows h hanno r hr hc hlen
    rcases check_drug_ok_cases h with ⟨_, hrows⟩ | ⟨_, hrows⟩
    · subst hrows
      rcases List.mem_map.mp hr with ⟨n, _, rfl⟩
      exact ⟨(by decide : ("no_match" : String) ≠ "exact_drugname"),
        (by decide : ("no_match" : String) ≠ "exact_rawname")⟩
    · subst hrows
      rcases List.mem_map.mp hr with ⟨n, _, rfl⟩
      have hs := matchDrugName_shape db.drug_anno md mnl th n
      rw [hs.2.1] at hc
      rw [hs.1] at hlen
      have h1 : exactDrugnameTier db.drug_anno n (_clean_drug_name n) = none := by
        unfold exactDrugnameTier
        apply filterTier_eq_none
        intro a ha
        simp only [hc, beq_iff_eq]
        exact (hanno a ha).1
      have h2 : exactDrugRawnameTier db.drug_anno n (_clean_drug_name n) = none := by
        unfold exactDrugRawnameTier
        apply filterTier_eq_none
        intro a ha
        simp only [hc, beq_iff_eq]
        exact (hanno a ha).2
      have hmem := @matchDrugName_no_exact db.drug_anno md mnl th n hlen h1 h2
      have hsafe : ∀ t ∈ (["fuzzy_drugname", "fuzzy_rawname", "partial_drugname",
          "partial_rawname", "no_match"] : List String),
          t ≠ "exact_drugname" ∧ t ≠ "exact_rawname" := by decide
      exact hsafe _ hmem

/-- Witness for the amended C4: the input `"-"` canonicalizes to `""`
in both profiles and is left unmatched by the exact tiers against
`exDb`, whose reference fields all canonicalize to non-empty keys. -/
theorem C4_exact_tiers_witness :
    (({ original_name := "-", cleaned_name := "", harmonized_name := "",
        match_type := "no_match", match_confidence := "none",
        new_name := "-" } : MatchRow).match_type ≠ "exact_sampleid" ∧
     ({ original_name := "-", cleaned_name := "", harmonized_name := "",
        match_type := "no_match", match_confidence := "none",
        new_name := "-" } : MatchRow).match_type ≠ "exact_rawname" ∧
     ({ original_name := "-", cleaned_name := "", harmonized_name := "",
        match_type := "no_match", match_confidence := "none",
        new_name := "-" } : MatchRow).match_type ≠ "exact_alternate") ∧
    (({ original_name := "-", cleaned_name := "", harmonized_name := "",
        match_type := "no_match", match_confidence := "none",
        new_name := "-" } : MatchRow).match_type ≠ "exact_drugname" ∧
     ({ original_name := "-", cleaned_name := "", harmonized_name := "",
        match_type := "no_match", match_confidence := "none",
        new_name := "-" } : MatchRow).match_type ≠ "exact_rawname") :=
  ⟨C4_exact_tiers_amended.1 exDb ["-"] (2/10) 5 _ rfl (by decide) (by decide) _
     (by exact List.mem_singleton.mpr rfl) rfl (by decide),
   C4_exact_tiers_amended.2 exDb ["-"] (2/10) 5 17 _ rfl (by decide) _
     (by exact List.mem_singleton.mpr rfl) rfl (by decide)⟩

/-! ## Claim C9: tightening the fuzzy threshold cannot gain matches -/

/-- Whether a result row came from the fuzzy tier of either profile. -/
def isFuzzyRow (r : MatchRow) : Bool :=
  (["fuzzy_sampleid", "fuzzy_rawname", "fuzzy_alternate", "fuzzy_drugname"] :
    List String).contains r.match_type

/-- Number of fuzzy-tier rows in a harmonization outcome (zero for the
error outcome, which has no rows). -/
def fuzzyCount : Except DROMAException (List MatchRow) → ℕ
  | .ok rows => rows.countP isFuzzyRow
  | .error _ => 0

theorem isFuzzyRow_false_of_eq {r : MatchRow} {t : String} (ht : r.match_type = t)
    (h : (["fuzzy_sampleid", "fuzzy_rawname", "fuzzy_alternate", "fuzzy_drugname"] :
      List String).contains t = false) : isFuzzyRow r = false := by
  unfold isFuzzyRow
  rw [ht]
  exact h

theorem isFuzzyRow_true_of_mem_sample {r : MatchRow}
    (h : r.match_type ∈ (["fuzzy_sampleid", "fuzzy_rawname", "fuzzy_alternate"] :
      List String)) : isFuzzyRow r = true := by
  simp only [List.mem_cons, List.not_mem_nil, or_false] at h
  unfold isFuzzyRow
  rcases h with h | h | h <;> rw [h] <;> decide

theorem isFuzzyRow_true_of_mem_drug {r : MatchRow}
    (h : r.match_type ∈ (["fuzzy_drugname", "fuzzy_rawname"] : List String)) :
    isFuzzyRow r = true := by
  simp only [List.mem_cons, List.not_mem_nil, or_false] at h
  unfold isFuzzyRow
  rcases h with h | h <;> rw [h] <;> decide

theorem isFuzzyRow_false_of_mem_sub_sample {r : MatchRow}
    (h : r.match_type ∈ (["partial_sampleid", "partial_rawname"] : List String)) :
    isFuzzyRow r = false := by
  simp only [List.mem_cons, List.not_mem_nil, or_false] at h
  rcases h with h | h <;> exact isFuzzyRow_false_of_eq h (by decide)

theorem isFuzzyRow_false_of_mem_sub_drug {r : MatchRow}
    (h : r.match_type ∈ (["partial_drugname", "partial_rawname"] : List String)) :
    isFuzzyRow r = false := by
  simp only [List.mem_cons, List.not_mem_nil, or_false] at h
  rcases h with h | h <;> exact isFuzzyRow_false_of_eq h (by decide)

/-- Lowering the score cutoff preserves an accepted best match (the
best choice itself does not depend on the cutoff). -/
theorem extractOne_mono {q : String} {choices : List String} {c1 c2 : ℤ} {x : String}
    (hle : c2 ≤ c1) (h : extractOne q choices c1 = some x) :
    extractOne q choices c2 = some x := by
  unfold extractOne at h ⊢
  rcases hbc : bestChoice q choices with _ | ⟨c, s⟩
  · simp only [hbc] at h
    exact Option.noConfusion h
  · simp only [hbc] at h ⊢
    by_cases hcs : ((c1 : ℤ) : ℚ) ≤ s
    · rw [if_pos hcs] at h
      cases h
      rw [if_pos (le_trans (Int.cast_le.mpr hle) hcs)]
    · rw [if_neg hcs] at h
      cases h

theorem fuzzySampleIdTier_mono {sample_anno o cn r} {c1 c2 : ℤ} (hle : c2 ≤ c1)
    (h : fuzzySampleIdTier sample_anno o cn c1 = some r) :
    fuzzySampleIdTier sample_anno o cn c2 = some r := by
  simp only [fuzzySampleIdTier] at h ⊢
  split at h
  · rename_i best hbest
    rw [extractOne_mono hle hbest]
    exact h
  · cases h

theorem fuzzyRawnameTier_mono {sample_anno o cn r} {c1 c2 : ℤ} (hle : c2 ≤ c1)
    (h : fuzzyRawnameTier sample_anno o cn c1 = some r) :
    fuzzyRawnameTier sample_anno o cn c2 = some r := by
  simp only [fuzzyRawnameTier] at h ⊢
  split at h
  · rename_i best hbest
    rw [extractOne_mono hle hbest]
    exact h
  · cases h

theorem fuzzyAlternateTier_mono {alt o cn r} {c1 c2 : ℤ} (hle : c2 ≤ c1)
    (h : fuzzyAlternateTier alt o cn c1 = some r) :
    fuzzyAlternateTier alt o cn c2 = some r := by
  simp only [fuzzyAlternateTier] at h ⊢
  split at h
  · rename_i best hbest
    rw [extractOne_mono hle hbest]
    exact h
  · cases h

theorem fuzzyDrugnameTier_mono {drug_anno o cn r} {c1 c2 : ℤ} (hle : c2 ≤ c1)
    (h : fuzzyDrugnameTier drug_anno o cn c1 = some r) :
    fuzzyDrugnameTier drug_anno o cn c2 = some r := by
  simp only [fuzzyDrugnameTier] at h ⊢
  split at h
  · rename_i best hbest
    rw [extractOne_mono hle hbest]
    exact h
  · cases h

theorem fuzzyDrugRawnameTier_mono {drug_anno o cn r} {c1 c2 : ℤ} (hle : c2 ≤ c1)
    (h : fuzzyDrugRawnameTier drug_anno o cn c1 = some r) :
    fuzzyDrugRawnameTier drug_anno o cn c2 = some r := by
  simp only [fuzzyDrugRawnameTier] at h ⊢
  split at h
  · rename_i best hbest
    rw [extractOne_mono hle hbest]
    exact h
  · cases h

/-- If the fuzzy block fires at a high cutoff, it also fires (possibly
at an earlier field) at any lower cutoff. -/
theorem fuzzySampleTiers_mono {sample_anno alt o cn} {c1 c2 : ℤ} {r} (hle : c2 ≤ c1)
    (h : fuzzySampleTiers sample_anno alt o cn c1 = some r) :
    ∃ r2, fuzzySampleTiers sample_anno alt o cn c2 = some r2 := by
  unfold fuzzySampleTiers at h ⊢
  split at h
  · rename_i r1 heq1
    rw [fuzzySampleIdTier_mono hle heq1]
    exact ⟨r1, rfl⟩
  · rcases h2 : fuzzySampleIdTier sample_anno o cn c2 with _ | r2
    · split at h
      · rename_i r1 heq2
        rw [fuzzyRawnameTier_mono hle heq2]
        exact ⟨r1, rfl⟩
      · rcases h3 : fuzzyRawnameTier sample_anno o cn c2 with _ | r2b
        · exact ⟨r, fuzzyAlternateTier_mono hle h⟩
        · exact ⟨r2b, rfl⟩
    · exact ⟨r2, rfl⟩

theorem fuzzyDrugTiers_mono {drug_anno o cn} {c1 c2 : ℤ} {r} (hle : c2 ≤ c1)
    (h : fuzzyDrugTiers drug_anno o cn c1 = some r) :
    ∃ r2, fuzzyDrugTiers drug_anno o cn c2 = some r2 := by
  unfold fuzzyDrugTiers at h ⊢
  split at h
  · rename_i r1 heq1
    rw [fuzzyDrugnameTier_mono hle heq1]
    exact ⟨r1, rfl⟩
  · rcases h2 : fuzzyDrugnameTier drug_anno o cn c2 with _ | r2
    · exact ⟨r, fuzzyDrugRawnameTier_mono hle h⟩
    · exact ⟨r2, rfl⟩

/-- After the fuzzy block declines, the remaining tiers (substring,
no-match fallback) never produce a fuzzy row. -/
theorem sample_tail_not_fuzzy {sample_anno : List SampleAnnoRow} {mnl : ℕ} {o cn : String} :
    isFuzzyRow (match (if mnl ≤ cn.length then subSampleTiers sample_anno o cn else none) with
      | some r => r
      | none => { original_name := o, cleaned_name := cn, harmonized_name := cn,
                  match_type := "no_match", match_confidence := "none",
                  new_name := o }) = false := by
  split
  · rename_i r heq
    split at heq
    · exact isFuzzyRow_false_of_mem_sub_sample (subSampleTiers_type heq)
    · cases heq
  · exact isFuzzyRow_false_of_eq (t := "no_match") rfl (by decide)

theorem drug_tail_not_fuzzy {drug_anno : List DrugAnnoRow} {mnl : ℕ} {o cn : String} :
    isFuzzyRow (match (if mnl ≤ cn.length then subDrugTiers drug_anno o cn else none) with
      | some r => r
      | none => { original_name := o, cleaned_name := cn, harmonized_name := cn,
                  match_type := "no_match", match_confidence := "none",
                  new_name := o }) = false := by
  split
  · rename_i r heq
    split at heq
    · exact isFuzzyRow_false_of_mem_sub_drug (subDrugTiers_type heq)
    · cases heq
  · exact isFuzzyRow_false_of_eq (t := "no_match") rfl (by decide)

/-- Per-input monotonicity: if one sample-loop iteration produces a
fuzzy row at the tighter cutoff, it also produces a fuzzy row at any
looser cutoff (the exact tiers do not depend on the cutoff, and the
fuzzy block only becomes more permissive). -/
theorem matchSampleName_fuzzy_mono {sample_anno : List SampleAnnoRow} {alt : List AltEntry}
    {mnl : ℕ} {o : String} {md1 md2 : ℚ}
    (hle : pyInt ((1 - md2) * 100) ≤ pyInt ((1 - md1) * 100))
    (h : isFuzzyRow (matchSampleName sample_anno alt md1 mnl o) = true) :
    isFuzzyRow (matchSampleName sample_anno alt md2 mnl o) = true := by
  simp only [matchSampleName] at h ⊢
  by_cases hlong : o.length > 30
  · simp only [if_pos hlong] at h
    rw [isFuzzyRow_false_of_eq (t := "keep_original_long") rfl (by decide)] at h
    exact absurd h (by decide)
  · simp only [if_neg hlong] at h ⊢
    rcases h1 : exactSampleIdTier sample_anno o (_clean_name o) with _ | r1
    · simp only [h1] at h
      rcases h2 : exactRawnameTier sample_anno o (_clean_name o) with _ | r2
      · simp only [h2] at h
        rcases h3 : exactAlternateTier alt o (_clean_name o) with _ | r3
        · simp only [h3] at h
          by_cases hg : 3 ≤ (_clean_name o).length
          · simp only [if_pos hg] at h ⊢
            rcases hf : fuzzySampleTiers sample_anno alt o (_clean_name o)
                (pyInt ((1 - md1) * 100)) with _ | rf
            · simp only [hf] at h
              rw [sample_tail_not_fuzzy] at h
              exact absurd h (by decide)
            · obtain ⟨r2', hf2⟩ := fuzzySampleTiers_mono hle hf
              rw [hf2]
              exact isFuzzyRow_true_of_mem_sample (fuzzySampleTiers_type hf2)
          · simp only [if_neg hg] at h
            rw [sample_tail_not_fuzzy] at h
            exact absurd h (by decide)
        · simp only [h3] at h
          rw [isFuzzyRow_false_of_eq (exactAlternateTier_shape h3).2.2.1 (by decide)] at h
          exact absurd h (by decide)
      · simp only [h2] at h
        rw [isFuzzyRow_false_of_eq (exactRawnameTier_shape h2).2.2.1 (by decide)] at h
        exact absurd h (by decide)
    · simp only [h1] at h
      rw [isFuzzyRow_false_of_eq (exactSampleIdTier_shape h1).2.2.1 (by decide)] at h
      exact absurd h (by decide)

/-- Per-input monotonicity for the drug loop. -/
theorem matchDrugName_fuzzy_mono {drug_anno : List DrugAnnoRow} {mnl th : ℕ} {o : String}
    {md1 md2 : ℚ}
    (hle : pyInt ((1 - md2) * 100) ≤ pyInt ((1 - md1) * 100))
    (h : isFuzzyRow (matchDrugName drug_anno md1 mnl th o) = true) :
    isFuzzyRow (matchDrugName drug_anno md2 mnl th o) = true := by
  simp only [matchDrugName] at h ⊢
  by_cases hlong : o.length > th
  · simp only [if_pos hlong] at h
    rw [isFuzzyRow_false_of_eq (t := "keep_original_long") rfl (by decide)] at h
    exact absurd h (by decide)
  · simp only [if_neg hlong] at h ⊢
    rcases h1 : exactDrugnameTier drug_anno o (_clean_drug_name o) with _ | r1
    · simp only [h1] at h
      rcases h2 : exactDrugRawnameTier drug_anno o (_clean_drug_name o) with _ | r2
      · simp only [h2] at h
        by_cases hg : 3 ≤ (_clean_drug_name o).length
        · simp only [if_pos hg] at h ⊢
          rcases hf : fuzzyDrugTiers drug_anno o (_clean_drug_name o)
              (pyInt ((1 - md1) * 100)) with _ | rf
          · simp only [hf] at h
            rw [drug_tail_not_fuzzy] at h
            exact absurd h (by decide)
          · obtain ⟨r2', hf2⟩ := fuzzyDrugTiers_mono hle hf
            rw [hf2]
            exact isFuzzyRow_true_of_mem_drug (fuzzyDrugTiers_type hf2)
        · simp only [if_neg hg] at h
          rw [drug_tail_not_fuzzy] at h
          exact absurd h (by decide)
      · simp only [h2] at h
        rw [isFuzzyRow_false_of_eq (exactDrugRawnameTier_shape h2).2.2.1 (by decide)] at h
        exact absurd h (by decide)
    · simp only [h1] at h
      rw [isFuzzyRow_false_of_eq (exactDrugnameTier_shape h1).2.2.1 (by decide)] at h
      exact absurd h (by decide)

theorem pyInt_intCast (n : ℤ) : pyInt ((n : ℤ) : ℚ) = n := by
  simp [pyInt]

/-- The concrete cutoffs of the claim: `int((1-0.2)*100) = 80` and
`int((1-0.0)*100) = 100`. -/
theorem cutoff_le : pyInt ((1 - (2 : ℚ)/10) * 100) ≤ pyInt ((1 - (0 : ℚ)) * 100) := by
  have e1 : ((1 - (2 : ℚ)/10) * 100) = ((80 : ℤ) : ℚ) := by norm_num
  have e2 : ((1 - (0 : ℚ)) * 100) = ((100 : ℤ) : ℚ) := by norm_num
  rw [e1, e2, pyInt_intCast, pyInt_intCast]
  omega

/-- Claim C9: for a fixed store and input list, running either
harmonization with `max_distance = 0.0` yields at most as many
fuzzy-tier rows as running it with `max_distance = 0.2`. -/
theorem C9_tightening_cannot_gain_fuzzy :
    (∀ (db : Database) (names : List String) (mnl : ℕ),
       fuzzyCount (check_droma_sample_names db names 0 mnl) ≤
       fuzzyCount (check_droma_sample_names db names (2/10) mnl)) ∧
    (∀ (db : Database) (names : List String) (mnl th : ℕ),
       fuzzyCount (check_droma_drug_names db names 0 mnl th) ≤
       fuzzyCount (check_droma_drug_names db names (2/10) mnl th)) := by
  constructor
  · intro db names mnl
    simp only [check_droma_sample_names]
    by_cases ht : "sample_anno" ∉ db.tables
    · simp only [if_pos ht]
      exact le_refl _
    · simp only [if_neg ht]
      by_cases he : db.sample_anno.isEmpty
      · simp only [if_pos he]
        exact le_refl _
      · simp only [if_neg he]
        simp only [fuzzyCount]
        rw [List.countP_map, List.countP_map]
        apply List.countP_mono_left
        intro n _ hfz
        exact matchSampleName_fuzzy_mono cutoff_le hfz
  · intro db names mnl th
    simp only [check_droma_drug_names]
    by_cases ht : "drug_anno" ∉ db.tables
    · simp only [if_pos ht]
      exact le_refl _
    · simp only [if_neg ht]
      by_cases he : db.drug_anno.isEmpty
      · simp only [if_pos he]
        exact le_refl _
      · simp only [if_neg he]
        simp only [fuzzyCount]
        rw [List.countP_map, List.countP_map]
        apply List.countP_mono_left
        intro n _ hfz
        exact matchDrugName_fuzzy_mono cutoff_le hfz

/-! ## Claim C7: the parenthesis-handling step -/

theorem dropWhile_append_all {p : Char → Bool} {w : List Char} (l : List Char)
    (hw : ∀ c ∈ w, p c = true) : (w ++ l).dropWhile p = l.dropWhile p := by
  induction w with
  | nil => rfl
  | cons c w ih =>
      have hc : p c = true := hw c (by simp)
      simp only [List.cons_append, List.dropWhile_cons_of_pos hc]
      exact ih (fun d hd => hw d (by simp [hd]))

theorem dropWhile_cons_neg {p : Char → Bool} {c : Char} {l : List Char} (hc : p c = false) :
    (c :: l).dropWhile p = c :: l :=
  List.dropWhile_cons_of_neg (by simp [hc])

/-- Trimming a string of the form `w1 ++ "(" ++ m ++ ")" ++ w2` with
whitespace `w1`, `w2` yields `"(" ++ m ++ ")"`. -/
theorem pyTrim_group {w1 m w2 : List Char} (h1 : ∀ c ∈ w1, pySpace c = true)
    (h2 : ∀ c ∈ w2, pySpace c = true) :
    pyTrim (w1 ++ '(' :: (m ++ ')' :: w2)) = '(' :: (m ++ [')']) := by
  unfold pyTrim
  rw [dropWhile_append_all _ h1, dropWhile_cons_neg (by decide)]
  have hrev : ('(' :: (m ++ ')' :: w2)).reverse = w2.reverse ++ ')' :: (m.reverse ++ ['(']) := by
    simp
  rw [hrev, dropWhile_append_all _ (fun c hc => h2 c (by simpa using hc)),
    dropWhile_cons_neg (by decide)]
  simp

theorem wholeParenMatch_group {w1 m w2 : List Char} (h1 : ∀ c ∈ w1, pySpace c = true)
    (h2 : ∀ c ∈ w2, pySpace c = true) (hm : '\n' ∉ m) :
    wholeParenMatch (w1 ++ '(' :: (m ++ ')' :: w2)) = true := by
  unfold wholeParenMatch
  rw [pyTrim_group h1 h2]
  simp [hm]

theorem subLeadingParen_group {w1 m w2 : List Char} (h1 : ∀ c ∈ w1, pySpace c = true) :
    subLeadingParen (w1 ++ '(' :: (m ++ ')' :: w2)) = m ++ ')' :: w2 := by
  unfold subLeadingParen
  rw [dropWhile_append_all _ h1, dropWhile_cons_neg (by decide)]
  rfl

theorem subTrailingParen_group {m w2 : List Char} (h2 : ∀ c ∈ w2, pySpace c = true) :
    subTrailingParen (m ++ ')' :: w2) = m := by
  unfold subTrailingParen
  have hrev : (m ++ ')' :: w2).reverse = w2.reverse ++ ')' :: m.reverse := by
    simp
  rw [hrev, dropWhile_append_all _ (fun c hc => h2 c (by simpa using hc)),
    dropWhile_cons_neg (by decide)]
  simp

/-- The if-branch of C7, structurally: any string that is whitespace,
`(`, newline-free middle, `)`, whitespace is reduced to the middle
alone, even when the outer parentheses are not a matching pair. -/
theorem paren_step_outer {w1 m w2 : List Char} (h1 : ∀ c ∈ w1, pySpace c = true)
    (h2 : ∀ c ∈ w2, pySpace c = true) (hm : '\n' ∉ m) :
    paren_step (w1 ++ '(' :: (m ++ ')' :: w2)) = m := by
  unfold paren_step
  rw [wholeParenMatch_group h1 h2 hm, if_pos rfl, subLeadingParen_group h1,
    subTrailingParen_group h2]

theorem removeParenGroupsF_fuel {f : ℕ} : ∀ {l : List Char} {g : ℕ},
    l.length ≤ f → l.length ≤ g → removeParenGroupsF f l = removeParenGroupsF g l := by
  induction f with
  | zero =>
      intro l g hf _
      have : l = [] := List.length_eq_zero.mp (Nat.le_zero.mp hf)
      subst this
      cases g <;> rfl
  | succ f ih =>
      intro l g hf hg
      cases l with
      | nil => cases g <;> rfl
      | cons c rest =>
          simp only [List.length_cons] at hf hg
          cases g with
          | zero => omega
          | succ g =>
              show (match tryParenMatch (c :: rest) with
                    | some r => removeParenGroupsF f r
                    | none => c :: removeParenGroupsF f rest) =
                   (match tryParenMatch (c :: rest) with
                    | some r => removeParenGroupsF g r
                    | none => c :: removeParenGroupsF g rest)
              rcases htry : tryParenMatch (c :: rest) with _ | r
              · have h1 : rest.length ≤ f := by omega
                have h2 : rest.length ≤ g := by omega
                rw [ih h1 h2]
              · have hlt := tryParenMatch_length htry
                simp only [List.length_cons] at hlt
                exact ih (by omega) (by omega)

theorem removeParenGroups_eq_F {l : List Char} {f : ℕ} (hf : l.length ≤ f) :
    removeParenGroups l = removeParenGroupsF f l :=
  removeParenGroupsF_fuel (le_refl _) hf

theorem afterParenContent_through {m : List Char} (b : List Char) (hm : ')' ∉ m) :
    afterParenContent (m ++ ')' :: b) = some b := by
  induction m with
  | nil => simp [afterParenContent]
  | cons c m ih =>
      have hc : c ≠ ')' := fun h => hm (by simp [h])
      simp only [List.cons_append, afterParenContent, if_neg hc]
      exact ih (fun h => hm (by simp [h]))

/-- `\s*\([^)]+\)` matches at the head of `w ++ "(" ++ m ++ ")" ++ b`
when `w` is whitespace and `m` is a non-empty `)`-free content. -/
theorem tryParenMatch_group {w m b : List Char} (hw : ∀ c ∈ w, pySpace c = true)
    (hm : m ≠ []) (hm2 : ')' ∉ m) :
    tryParenMatch (w ++ '(' :: (m ++ ')' :: b)) = some b := by
  unfold tryParenMatch
  rw [dropWhile_append_all _ hw, dropWhile_cons_neg (by decide)]
  cases m with
  | nil => exact absurd rfl hm
  | cons c m =>
      have hc : c ≠ ')' := fun h => hm2 (by simp [h])
      have harm : (match c :: (m ++ ')' :: b) with
          | ')' :: _ => (none : Option (List Char))
          | _ => afterParenContent (c :: (m ++ ')' :: b))) =
          afterParenContent (c :: (m ++ ')' :: b)) := by
        cases hcc : c <;> simp_all
      show (match c :: (m ++ ')' :: b) with
          | ')' :: _ => (none : Option (List Char))
          | _ => afterParenContent (c :: (m ++ ')' :: b))) = some b
      rw [harm]
      simp only [afterParenContent, if_neg hc]
      exact afterParenContent_through b (fun h => hm2 (by simp [h]))

theorem dropWhile_head_in {p : Char → Bool} {a : List Char} (x : List Char) (hne : a ≠ [])
    (hlast : ∀ c, a.getLast? = some c → p c = false) :
    ∃ d a2, d ∈ a ∧ p d = false ∧ (a ++ x).dropWhile p = d :: (a2 ++ x) := by
  induction a with
  | nil => exact absurd rfl hne
  | cons c a ih =>
      cases a with
      | nil =>
          have hc : p c = false := hlast c rfl
          refine ⟨c, [], by simp, hc, ?_⟩
          simp only [List.cons_append, List.nil_append]
          exact dropWhile_cons_neg hc
      | cons c2 a2 =>
          by_cases hc : p c = true
          · obtain ⟨d, a3, hd1, hd2, hd3⟩ := ih (by simp)
              (fun e he => hlast e (by rwa [List.getLast?_cons_cons]))
            exact ⟨d, a3, by simp [hd1], hd2, by
              simpa [List.dropWhile_cons_of_pos hc] using hd3⟩
          · have hc2 : p c = false := by simpa using hc
            refine ⟨c, c2 :: a2, by simp, hc2, ?_⟩
            simp only [List.cons_append]
            exact dropWhile_cons_neg hc2

/-- No `\s*\([^)]+\)` match can begin inside a segment that contains no
`(` and whose final character is not whitespace. -/
theorem tryParenMatch_none_within {a : List Char} (x : List Char) (hne : a ≠ [])
    (ha1 : '(' ∉ a) (ha2 : ∀ c, a.getLast? = some c → pySpace c = false) :
    tryParenMatch (a ++ x) = none := by
  obtain ⟨d, a2, hd1, _, hd3⟩ := dropWhile_head_in x hne ha2
  have hdne : d ≠ '(' := fun h => ha1 (h ▸ hd1)
  unfold tryParenMatch
  rw [hd3]
  cases hdd : d <;> simp_all

theorem tryParenMatch_none_no_lparen {l : List Char} (h : '(' ∉ l) :
    tryParenMatch l = none := by
  unfold tryParenMatch
  rcases hd : l.dropWhile pySpace with _ | ⟨d, rest⟩
  · rfl
  · have hdl : d ∈ l := by
      have := (List.dropWhile_sublist pySpace (l := l)).subset
      exact this (by rw [hd]; simp)
    have hdne : d ≠ '(' := fun hh => h (hh ▸ hdl)
    cases hdd : d <;> simp_all

theorem removeParenGroupsF_id {l : List Char} (h : '(' ∉ l) :
    ∀ f, removeParenGroupsF f l = l := by
  induction l with
  | nil => intro f; cases f <;> rfl
  | cons c rest ih =>
      intro f
      cases f with
      | zero => rfl
      | succ f =>
          show (match tryParenMatch (c :: rest) with
                | some r => removeParenGroupsF f r
                | none => c :: removeParenGroupsF f rest) = c :: rest
          rw [tryParenMatch_none_no_lparen h]
          rw [ih (fun hh => h (by simp [hh])) f]

theorem removeParenGroups_id {l : List Char} (h : '(' ∉ l) : removeParenGroups l = l :=
  removeParenGroupsF_id h _

/-- The else-branch of C7, structurally: a parenthesized group with
non-empty `)`-free content is removed together with the whitespace run
immediately before it, and removal continues on the remainder.  The
preceding segment `a` must contain no `(` (no earlier match) and must
not end in whitespace (so that `w` is the whole whitespace run). -/
theorem removeParenGroups_group {a w m b : List Char} (ha1 : '(' ∉ a)
    (ha2 : ∀ c, a.getLast? = some c → pySpace c = false)
    (hw : ∀ c ∈ w, pySpace c = true) (hm : m ≠ []) (hm2 : ')' ∉ m) :
    removeParenGroups (a ++ (w ++ '(' :: (m ++ ')' :: b))) =
      a ++ removeParenGroups b := by
  have main : ∀ (f : ℕ) (a : List Char), '(' ∉ a →
      (∀ c, a.getLast? = some c → pySpace c = false) →
      (a ++ (w ++ '(' :: (m ++ ')' :: b))).length ≤ f →
      removeParenGroupsF f (a ++ (w ++ '(' :: (m ++ ')' :: b))) =
        a ++ removeParenGroups b := by
    intro f
    induction f with
    | zero =>
        intro a _ _ hlen
        simp at hlen
    | succ f ihf =>
        intro a ha1 ha2 hlen
        cases a with
        | nil =>
            rcases hl : w ++ '(' :: (m ++ ')' :: b) with _ | ⟨c, rest⟩
            · simp at hl
            · simp only [List.nil_append]
              show (match tryParenMatch (c :: rest) with
                    | some r => removeParenGroupsF f r
                    | none => c :: removeParenGroupsF f rest) = removeParenGroups b
              rw [← hl, tryParenMatch_group hw hm hm2]
              have hble : b.length ≤ f := by
                have := congrArg List.length hl
                simp at this hlen
                omega
              show removeParenGroupsF f b = removeParenGroups b
              exact (removeParenGroups_eq_F hble).symm
        | cons ac a2 =>
            have hnone : tryParenMatch (ac :: (a2 ++ (w ++ '(' :: (m ++ ')' :: b)))) =
                none := by
              have := tryParenMatch_none_within (a := ac :: a2)
                (w ++ '(' :: (m ++ ')' :: b)) (by simp) ha1 ha2
              simpa using this
            show (match tryParenMatch (ac :: (a2 ++ (w ++ '(' :: (m ++ ')' :: b)))) with
                  | some r => removeParenGroupsF f r
                  | none => ac :: removeParenGroupsF f (a2 ++ (w ++ '(' :: (m ++ ')' :: b)))) =
                 (ac :: a2) ++ removeParenGroups b
            rw [hnone]
            have ha2' : ∀ c, a2.getLast? = some c → pySpace c = false := by
              intro c hc
              cases a2 with
              | nil => cases hc
              | cons y ys => exact ha2 c (by rwa [List.getLast?_cons_cons])
            have := ihf a2 (fun hh => ha1 (by simp [hh])) ha2' (by simp at hlen ⊢; omega)
            rw [this]
            rfl
  have := main (a ++ (w ++ '(' :: (m ++ ')' :: b))).length a ha1 ha2 (le_refl _)
  rw [← this, removeParenGroups_eq_F (le_refl _)]

/-- Depth scan for the spec's reading of the condition: with current
depth `d ≥ 1` (one `(` already open), true iff the depth first returns
to zero exactly at the last character. -/
def parenClosesAtEnd : ℕ → List Char → Bool
  | _, [] => false
  | d, c :: rest =>
      let d2 := if c = '(' then d + 1 else if c = ')' then d - 1 else d
      if d2 = 0 then rest.isEmpty else parenClosesAtEnd d2 rest

/-- Modelled from the spec's words for the C7 branch condition: "the
*entire* trimmed string is one parenthesized group", i.e. the opening
parenthesis at the start closes exactly at the final character. -/
def isOneParenGroup (s : List Char) : Bool :=
  match pyTrim s with
  | '(' :: rest => parenClosesAtEnd 1 rest
  | _ => false

/-- Parenthesis handling as claim C7 words it: keep the inner content
when the whole trimmed string is one group, otherwise remove each
parenthesized group with its immediately preceding whitespace. -/
def paren_step_spec (s : List Char) : List Char :=
  if isOneParenGroup s then subTrailingParen (subLeadingParen s)
  else removeParenGroups s

/-- Counterexample to C7 as stated: `"(a)(b)"` is not one parenthesized
group (the spec's reading removes both groups, leaving nothing), but the
code's regex `^\s*\(.*\)\s*$` matches it, so only the outermost
parentheses are dropped; the sample cleaner then yields `"ab"` instead
of `""`. -/
theorem C7_counterexample :
    paren_step ("(a)(b)".data) ≠ paren_step_spec ("(a)(b)".data) ∧
    paren_step ("(a)(b)".data) = "a)(b".data ∧
    paren_step_spec ("(a)(b)".data) = [] ∧
    _clean_name "(a)(b)" = "ab" :=
  ⟨by decide, by decide, by decide, by decide⟩

/-- Claim C7 as amended: the branch condition is merely "the trimmed
string starts with `(`, ends with `)`, and no newline stands between
them" — not "is one parenthesized group".  When it holds, only that
first `(` and last `)` (with the outer whitespace) are dropped and the
whole middle is kept, even if they are not a matching pair; otherwise
every parenthesized group with non-empty `)`-free content is removed
together with its immediately preceding whitespace run (both profiles
share this step verbatim). -/
theorem C7_paren_step_amended :
    (∀ w1 m w2 : List Char, (∀ c ∈ w1, pySpace c = true) →
       (∀ c ∈ w2, pySpace c = true) → '\n' ∉ m →
       paren_step (w1 ++ '(' :: (m ++ ')' :: w2)) = m) ∧
    (∀ a w m b : List Char,
       wholeParenMatch (a ++ (w ++ '(' :: (m ++ ')' :: b))) = false →
       '(' ∉ a → (∀ c, a.getLast? = some c → pySpace c = false) →
       (∀ c ∈ w, pySpace c = true) → m ≠ [] → ')' ∉ m →
       paren_step (a ++ (w ++ '(' :: (m ++ ')' :: b))) =
         a ++ removeParenGroups b) := by
  constructor
  · exact fun w1 m w2 h1 h2 hm => paren_step_outer h1 h2 hm
  · intro a w m b hwp ha1 ha2 hw hm hm2
    have hstep : paren_step (a ++ (w ++ '(' :: (m ++ ')' :: b))) =
        removeParenGroups (a ++ (w ++ '(' :: (m ++ ')' :: b))) := by
      unfold paren_step
      rw [hwp]
      simp
    rw [hstep]
    exact removeParenGroups_group ha1 ha2 hw hm hm2

/-- Witness for the amended C7: `" (ab) "` keeps its middle `"ab"`, and
in `"x (y)z"` (not whole-parenthesized) the group `" (y)"` is removed
while the rest survives. -/
theorem C7_paren_step_witness :
    paren_step ([' '] ++ '(' :: (['a', 'b'] ++ ')' :: [' '])) = ['a', 'b'] ∧
    paren_step (['x'] ++ ([' '] ++ '(' :: (['y'] ++ ')' :: ['z']))) =
      ['x'] ++ removeParenGroups ['z'] :=
  ⟨C7_paren_step_amended.1 [' '] ['a', 'b'] [' '] (by decide) (by decide) (by decide),
   C7_paren_step_amended.2 ['x'] [' '] ['y'] ['z'] (by decide) (by decide)
     (by decide) (by decide) (by decide) (by decide)⟩

/-! ## Claims C8 and C10: output alphabet and idempotence of the cleaners -/

theorem isLowerAlnum_toNat {c : Char} (h : isLowerAlnum c = true) :
    (97 ≤ c.toNat ∧ c.toNat ≤ 122) ∨ (48 ≤ c.toNat ∧ c.toNat ≤ 57) := by
  unfold isLowerAlnum at h
  simpa [Bool.or_eq_true, Bool.and_eq_true, decide_eq_true_eq] using h

theorem pySpace_toNat {c : Char} (h : pySpace c = true) :
    c.toNat = 32 ∨ c.toNat = 9 ∨ c.toNat = 10 ∨ c.toNat = 13 ∨
    c.toNat = 11 ∨ c.toNat = 12 := by
  unfold pySpace at h
  simp only [Bool.or_eq_true, decide_eq_true_eq] at h
  rcases h with ⟨⟨⟨⟨h | h⟩ | h⟩ | h⟩ | h⟩ | h <;> subst h <;> simp

theorem not_pySpace_of_alnum {c : Char} (h : isLowerAlnum c = true) :
    pySpace c = false := by
  rcases hs : pySpace c with _ | _
  · rfl
  · rcases isLowerAlnum_toNat h with ⟨h1, h2⟩ | ⟨h1, h2⟩ <;>
      rcases pySpace_toNat hs with ht | ht | ht | ht | ht | ht <;> omega

theorem pyLower_fixes_alnum {c : Char} (h : isLowerAlnum c = true) : pyLower c = c := by
  unfold pyLower
  rcases isLowerAlnum_toNat h with ⟨h1, h2⟩ | ⟨h1, h2⟩ <;> rw [if_neg (by omega)]

theorem isCJK_false_of_alnum {c : Char} (h : isLowerAlnum c = true) : isCJK c = false := by
  unfold isCJK
  rcases isLowerAlnum_toNat h with ⟨h1, h2⟩ | ⟨h1, h2⟩ <;>
    simp [Bool.and_eq_true, decide_eq_true_eq] <;> omega

theorem map_id_of {f : Char → Char} {l : List Char} (h : ∀ c ∈ l, f c = c) :
    l.map f = l := by
  induction l with
  | nil => rfl
  | cons c rest ih => simp [h c (by simp), ih (fun d hd => h d (by simp [hd]))]

theorem removeBracketQ_id {l : List Char} (h : '[' ∉ l) : removeBracketQ l = l := by
  induction l with
  | nil => rfl
  | cons c rest ih =>
      have hc : c ≠ '[' := fun hh => h (by simp [hh])
      have : removeBracketQ (c :: rest) = c :: removeBracketQ rest := by
        conv_lhs => unfold removeBracketQ
        split
        · rename_i rest1 heq
          exact absurd (List.cons.inj heq).1 hc
        · rename_i c2 rest2 hno heq
          obtain ⟨h1, h2⟩ := List.cons.inj heq
          rw [← h1, ← h2]
        · rename_i heq
          simp at heq
      rw [this, ih (fun hh => h (by simp [hh]))]

theorem removeSquareF_id {l : List Char} (h : '[' ∉ l) :
    ∀ f, removeSquareF f l = l := by
  induction l with
  | nil => intro f; cases f <;> rfl
  | cons c rest ih =>
      intro f
      cases f with
      | zero => rfl
      | succ f =>
          have hc : c ≠ '[' := fun hh => h (by simp [hh])
          show (if c = '[' then
                  match skipToRBracket rest with
                  | some rest2 => removeSquareF f rest2
                  | none => c :: removeSquareF f rest
                else c :: removeSquareF f rest) = c :: rest
          rw [if_neg hc, ih (fun hh => h (by simp [hh])) f]

theorem removeSquare_id {l : List Char} (h : '[' ∉ l) : removeSquare l = l :=
  removeSquareF_id h _

theorem dropWhile_id {p : Char → Bool} {l : List Char}
    (h : ∀ c, l.head? = some c → p c = false) : l.dropWhile p = l := by
  cases l with
  | nil => rfl
  | cons c rest => exact dropWhile_cons_neg (h c rfl)

theorem pyTrim_id {l : List Char} (h1 : ∀ c, l.head? = some c → pySpace c = false)
    (h2 : ∀ c, l.getLast? = some c → pySpace c = false) : pyTrim l = l := by
  unfold pyTrim
  rw [dropWhile_id h1, dropWhile_id (fun c hc => h2 c (by rwa [List.head?_reverse] at hc)),
    List.reverse_reverse]

theorem wholeParenMatch_eq_false {l : List Char} (ht : pyTrim l = l) (h : '(' ∉ l) :
    wholeParenMatch l = false := by
  unfold wholeParenMatch
  rw [ht]
  cases l with
  | nil => rfl
  | cons c rest =>
      have hc : c ≠ '(' := fun hh => h (by simp [hh])
      cases hdd : c <;> simp_all

theorem paren_step_id {l : List Char} (ht : pyTrim l = l) (h : '(' ∉ l) :
    paren_step l = l := by
  unfold paren_step
  rw [wholeParenMatch_eq_false ht h]
  simpa using removeParenGroups_id h

theorem mem_pyTrim {c : Char} {l : List Char} (h : c ∈ pyTrim l) : c ∈ l := by
  unfold pyTrim at h
  rw [List.mem_reverse] at h
  have h2 := (List.dropWhile_sublist pySpace).subset h
  rw [List.mem_reverse] at h2
  exact (List.dropWhile_sublist pySpace).subset h2

/-- C10, sample profile: every character of a cleaned sample name is a
lowercase Latin letter or digit. -/
theorem cleanNameL_charset {s : List Char} : ∀ c ∈ cleanNameL s, isLowerAlnum c = true := by
  intro c hc
  unfold cleanNameL at hc
  have := mem_pyTrim hc
  exact List.of_mem_filter this

/-- A string over `[a-z0-9]` is a fixed point of the sample cleaner. -/
theorem cleanNameL_fix {l : List Char} (h : ∀ c ∈ l, isLowerAlnum c = true) :
    cleanNameL l = l := by
  have hnb : '[' ∉ l := fun hm => absurd (h '[' hm) (by decide)
  have hnp : '(' ∉ l := fun hm => absurd (h '(' hm) (by decide)
  have hnw : ∀ c ∈ l, pySpace c = false := fun c hc => not_pySpace_of_alnum (h c hc)
  have htrim : pyTrim l = l :=
    pyTrim_id (fun c hc => hnw c (List.mem_of_mem_head? hc))
      (fun c hc => hnw c (List.mem_of_mem_getLast? hc))
  have e1 : l.map pyLower = l := map_id_of (fun c hc => pyLower_fixes_alnum (h c hc))
  have e3 : List.filter (fun c => !isCJK c) l = l :=
    List.filter_eq_self.mpr (fun c hc => by simp [isCJK_false_of_alnum (h c hc)])
  have e5 : paren_step l = l := paren_step_id htrim hnp
  have e6 : List.filter isLowerAlnum l = l := List.filter_eq_self.mpr h
  simp only [cleanNameL]
  rw [e1, removeBracketQ_id hnb, e3, removeSquare_id hnb, e5, e6, htrim]

/-- C8, sample profile: the sample cleaner is idempotent. -/
theorem clean_name_idem (s : String) : _clean_name (_clean_name s) = _clean_name s := by
  show (⟨cleanNameL (cleanNameL s.data)⟩ : String) = ⟨cleanNameL s.data⟩
  rw [cleanNameL_fix (fun c hc => cleanNameL_charset c hc)]

theorem mem_collapseWs {c : Char} : ∀ {l : List Char}, c ∈ collapseWs l → c ∈ l ∨ c = ' '
  | [], h => by simp [collapseWs] at h
  | [d], h => by
      unfold collapseWs at h
      split at h
      · simp at h
        exact Or.inr h
      · simp at h
        exact Or.inl (by simp [h])
  | d :: e :: t, h => by
      unfold collapseWs at h
      split at h
      · split at h
        · rcases mem_collapseWs h with hm | hm
          · exact Or.inl (by simp [hm])
          · exact Or.inr hm
        · rcases List.mem_cons.mp h with hm | hm
          · exact Or.inr hm
          · rcases mem_collapseWs hm with hm2 | hm2
            · exact Or.inl (by simp [hm2])
            · exact Or.inr hm2
      · rcases List.mem_cons.mp h with hm | hm
        · exact Or.inl (by simp [hm])
        · rcases mem_collapseWs hm with hm2 | hm2
          · exact Or.inl (by simp [hm2])
          · exact Or.inr hm2

theorem collapseWs_head_nonspace {d : Char} {rest : List Char} (hd : pySpace d = false) :
    ∃ t, collapseWs (d :: rest) = d :: t := by
  cases rest with
  | nil =>
      refine ⟨[], ?_⟩
      unfold collapseWs
      rw [if_neg (by simp [hd])]
  | cons e t =>
      refine ⟨collapseWs (e :: t), ?_⟩
      conv_lhs => unfold collapseWs
      rw [if_neg (by simp [hd])]

/-- The collapsed string never holds two adjacent spaces: a space is
emitted only at the end of a whitespace run, right before a non-space
character (or the end). -/
theorem collapseWs_chain : ∀ l : List Char,
    List.Chain' (fun a b => ¬(a = ' ' ∧ b = ' ')) (collapseWs l)
  | [] => by simp [collapseWs]
  | [c] => by
      unfold collapseWs
      split <;> simp
  | c :: d :: t => by
      have ih := collapseWs_chain (d :: t)
      unfold collapseWs
      split
      · split
        · exact ih
        · rename_i hd
          have hd2 : pySpace d = false := by simpa using hd
          obtain ⟨t2, ht2⟩ := collapseWs_head_nonspace hd2
          rw [ht2] at ih ⊢
          refine List.chain'_cons'.mpr ⟨?_, ih⟩
          intro b hb
          simp at hb
          subst hb
          intro ⟨_, hbd⟩
          rw [hbd] at hd2
          simp [pySpace] at hd2
      · rename_i hc
        have hc2 : pySpace c = false := by simpa using hc
        refine List.chain'_cons'.mpr ⟨?_, ih⟩
        intro b _
        intro ⟨hcs, _⟩
        rw [hcs] at hc2
        simp [pySpace] at hc2

theorem getLast?_dropWhile {p : Char → Bool} : ∀ {l : List Char},
    l.dropWhile p ≠ [] → (l.dropWhile p).getLast? = l.getLast?
  | [], h => by simp at h
  | c :: rest, h => by
      by_cases hc : p c = true
      · rw [List.dropWhile_cons_of_pos hc] at h ⊢
        have hrest : rest ≠ [] := by
          intro hh
          rw [hh] at h
          simp at h
        rw [getLast?_dropWhile h]
        cases rest with
        | nil => exact absurd rfl hrest
        | cons d t => rw [List.getLast?_cons_cons]
      · rw [dropWhile_cons_neg (by simpa using hc)]

theorem pyTrim_getLast_not {l : List Char} {c : Char}
    (h : (pyTrim l).getLast? = some c) : pySpace c = false := by
  unfold pyTrim at h
  rw [List.getLast?_reverse] at h
  have := List.head?_dropWhile_not pySpace ((l.dropWhile pySpace).reverse)
  rw [h] at this
  exact this

theorem pyTrim_head_not {l : List Char} {c : Char}
    (h : (pyTrim l).head? = some c) : pySpace c = false := by
  unfold pyTrim at h
  rw [List.head?_reverse] at h
  have hne : (l.dropWhile pySpace).reverse.dropWhile pySpace ≠ [] := by
    intro hh
    rw [hh] at h
    cases h
  rw [getLast?_dropWhile hne, List.getLast?_reverse] at h
  have := List.head?_dropWhile_not pySpace l
  rw [h] at this
  exact this

theorem chain'_pyTrim {R : Char → Char → Prop} (hsym : ∀ a b, R a b → R b a)
    {l : List Char} (h : List.Chain' R l) : List.Chain' R (pyTrim l) := by
  unfold pyTrim
  have h1 : List.Chain' R (l.dropWhile pySpace) := h.suffix (List.dropWhile_suffix _)
  have h2 : List.Chain' R (l.dropWhile pySpace).reverse :=
    List.chain'_reverse.mpr (h1.imp fun a b hab => hsym a b hab)
  have h3 : List.Chain' R ((l.dropWhile pySpace).reverse.dropWhile pySpace) :=
    h2.suffix (List.dropWhile_suffix pySpace)
  exact List.chain'_reverse.mpr (h3.imp fun a b hab => hsym a b hab)

/-- C10, drug profile: characters are lowercase alphanumerics or single
separating spaces; no leading/trailing whitespace, no two adjacent
spaces. -/
theorem cleanDrugNameL_props {s : List Char} :
    (∀ c ∈ cleanDrugNameL s, isLowerAlnum c = true ∨ c = ' ') ∧
    List.Chain' (fun a b => ¬(a = ' ' ∧ b = ' ')) (cleanDrugNameL s) ∧
    (∀ c, (cleanDrugNameL s).head? = some c → pySpace c = false) ∧
    (∀ c, (cleanDrugNameL s).getLast? = some c → pySpace c = false) := by
  refine ⟨?_, ?_, ?_, ?_⟩
  · intro c hc
    simp only [cleanDrugNameL] at hc
    have h1 := mem_pyTrim hc
    rcases mem_collapseWs h1 with h2 | h2
    · rcases List.mem_map.mp h2 with ⟨d, _, hd⟩
      by_cases hda : isLowerAlnum d = true
      · rw [if_pos hda] at hd
        exact Or.inl (hd ▸ hda)
      · rw [if_neg hda] at hd
        exact Or.inr hd.symm
    · exact Or.inr h2
  · show List.Chain' _ (pyTrim (collapseWs _))
    exact chain'_pyTrim (fun a b hab ⟨x, y⟩ => hab ⟨y, x⟩) (collapseWs_chain _)
  · intro c hc
    exact pyTrim_head_not (l := collapseWs _) hc
  · intro c hc
    exact pyTrim_getLast_not (l := collapseWs _) hc

theorem collapseWs_id : ∀ {l : List Char},
    (∀ c ∈ l, isLowerAlnum c = true ∨ c = ' ') →
    List.Chain' (fun a b => ¬(a = ' ' ∧ b = ' ')) l → collapseWs l = l
  | [], _, _ => rfl
  | [c], hcs, _ => by
      unfold collapseWs
      rcases hcs c (by simp) with h | h
      · rw [if_neg (by simp [not_pySpace_of_alnum h])]
      · subst h
        rw [if_pos (by decide)]
  | c :: d :: t, hcs, hch => by
      have hd := hcs d (by simp)
      have ih := collapseWs_id (fun e he => hcs e (by simp [he]))
        (List.chain'_cons'.mp hch).2
      conv_lhs => unfold collapseWs
      rcases hcs c (by simp) with h | h
      · rw [if_neg (by simp [not_pySpace_of_alnum h]), ih]
      · subst h
        rw [if_pos (by decide)]
        have hrel := (List.chain'_cons'.mp hch).1 d (by simp)
        have hdne : d ≠ ' ' := fun hh => hrel ⟨rfl, hh⟩
        have hda : isLowerAlnum d = true := by
          rcases hd with h2 | h2
          · exact h2
          · exact absurd h2 hdne
        rw [if_neg (by simp [not_pySpace_of_alnum hda]), ih]

/-- A canonical drug key is a fixed point of the drug cleaner. -/
theorem cleanDrugNameL_fix {l : List Char}
    (hcs : ∀ c ∈ l, isLowerAlnum c = true ∨ c = ' ')
    (hch : List.Chain' (fun a b => ¬(a = ' ' ∧ b = ' ')) l)
    (hh : ∀ c, l.head? = some c → pySpace c = false)
    (hl : ∀ c, l.getLast? = some c → pySpace c = false) :
    cleanDrugNameL l = l := by
  have hnb : '[' ∉ l := fun hm => by
    rcases hcs '[' hm with h | h
    · exact absurd h (by decide)
    · exact absurd h (by decide)
  have hnp : '(' ∉ l := fun hm => by
    rcases hcs '(' hm with h | h
    · exact absurd h (by decide)
    · exact absurd h (by decide)
  have htrim : pyTrim l = l := pyTrim_id hh hl
  have e1 : l.map pyLower = l := map_id_of (fun c hc => by
    rcases hcs c hc with h | h
    · exact pyLower_fixes_alnum h
    · subst h
      decide)
  have e3 : List.filter (fun c => !isCJK c) l = l := List.filter_eq_self.mpr (fun c hc => by
    rcases hcs c hc with h | h
    · simp [isCJK_false_of_alnum h]
    · subst h
      decide)
  have e5 : paren_step l = l := paren_step_id htrim hnp
  have e6 : l.map (fun c => if isLowerAlnum c then c else ' ') = l :=
    map_id_of (fun c hc => by
      rcases hcs c hc with h | h
      · rw [if_pos h]
      · subst h
        decide)
  have e7 : collapseWs l = l := collapseWs_id hcs hch
  simp only [cleanDrugNameL]
  rw [e1, removeBracketQ_id hnb, e3, e5, e6, e7, htrim]

theorem clean_drug_name_idem (s : String) :
    _clean_drug_name (_clean_drug_name s) = _clean_drug_name s := by
  show (⟨cleanDrugNameL (cleanDrugNameL s.data)⟩ : String) = ⟨cleanDrugNameL s.data⟩
  have h := cleanDrugNameL_props (s := s.data)
  rw [cleanDrugNameL_fix h.1 h.2.1 h.2.2.1 h.2.2.2]

/-- Claim C8: both cleaners are idempotent: cleaning an already-cleaned
name returns it unchanged. -/
theorem C8_cleaners_idempotent :
    (∀ s : String, _clean_name (_clean_name s) = _clean_name s) ∧
    (∀ s : String, _clean_drug_name (_clean_drug_name s) = _clean_drug_name s) :=
  ⟨clean_name_idem, clean_drug_name_idem⟩

/-- Claim C10: the sample cleaner emits only lowercase Latin letters
and digits; the drug cleaner emits only lowercase Latin letters, digits
and single interior spaces, with no leading or trailing whitespace and
never two adjacent spaces. -/
theorem C10_cleaner_alphabets :
    (∀ (s : String) (c : Char), c ∈ (_clean_name s).data → isLowerAlnum c = true) ∧
    (∀ s : String,
       (∀ c ∈ (_clean_drug_name s).data, isLowerAlnum c = true ∨ c = ' ') ∧
       List.Chain' (fun a b => ¬(a = ' ' ∧ b = ' ')) (_clean_drug_name s).data ∧
       (∀ c, (_clean_drug_name s).data.head? = some c → pySpace c = false) ∧
       (∀ c, (_clean_drug_name s).data.getLast? = some c → pySpace c = false)) :=
  ⟨fun s c hc => cleanNameL_charset c hc, fun s => cleanDrugNameL_props⟩

/-- Witness for C10 at concrete cleaned names (`_clean_name "A b!" =
"ab"`, `_clean_drug_name "5-FU" = "5 fu"`). -/
theorem C10_cleaner_alphabets_witness :
    isLowerAlnum 'b' = true ∧ (isLowerAlnum '5' = true ∨ '5' = ' ') ∧
    pySpace '5' = false ∧ pySpace 'u' = false :=
  ⟨C10_cleaner_alphabets.1 "A b!" 'b' (by decide),
   (C10_cleaner_alphabets.2 "5-FU").1 '5' (by decide),
   (C10_cleaner_alphabets.2 "5-FU").2.2.1 '5' (by decide),
   (C10_cleaner_alphabets.2 "5-FU").2.2.2 'u' (by decide)⟩
